import Mathlib

/-!
Verification development for the openclaw mirror daemon.

The repository contains three variants of the mirroring logic:
* `mirror_daemon.js` — the turn-flag pipeline (`processLine`, `isWebchatUserMessage`,
  `extractAssistantText`, `sendToTelegram`);
* the run-correlation daemon (`parseSubsystem`, `parseRunStart`, `parseWebchatRunDone`,
  `processLine`, `shouldIgnore`, `sendToTelegram`, the `webchatRuns` map and the
  `processedRuns` set);
* `mirror_logic.js` — `MirrorLogLogic.shouldMirror` / `sendToTarget`.

JavaScript strings are modelled as Lean `String` (lists of characters); JSON parsing is
modelled by tagged variants that distinguish the outcomes the code branches on (blank
line, parse failure, parsed entry with the fields the code reads).  The regular
expressions used by the code are small and are modelled character by character below.
-/

namespace MirrorStr

/-- JavaScript whitespace as relevant to `String.prototype.trim` and `\s`
(the inputs at hand only ever involve these characters). -/
def isWs (c : Char) : Bool :=
  c == ' ' || c == '\n' || c == '\t' || c == '\r' || c == '\x0b' || c == '\x0c'

/-- `trim` on a character list: drop whitespace from both ends. -/
def trimL (l : List Char) : List Char :=
  ((l.dropWhile isWs).reverse.dropWhile isWs).reverse

/-- JS `String.prototype.trim`. -/
def trimS (s : String) : String := ⟨trimL s.data⟩

/-- Boolean prefix test on character lists (JS `startsWith`). -/
def startsWithL : List Char → List Char → Bool
  | [], _ => true
  | _ :: _, [] => false
  | p :: ps, c :: cs => p == c && startsWithL ps cs

/-- JS `text.startsWith(p)`. -/
def startsWithS (p s : String) : Bool := startsWithL p.data s.data

/-- Boolean substring test on character lists (JS `includes`). -/
def hasSubL (n : List Char) : List Char → Bool
  | [] => n.isEmpty
  | c :: t => startsWithL n (c :: t) || hasSubL n t

/-- JS `text.includes(n)`. -/
def hasSubS (n s : String) : Bool := hasSubL n.data s.data

/-- Strip a literal prefix, returning the remainder when it matches. -/
def dropPref : List Char → List Char → Option (List Char)
  | [], l => some l
  | _ :: _, [] => none
  | p :: ps, c :: cs => if p == c then dropPref ps cs else none

/-- Model of the JS regex `key([class]+)` used with `String.prototype.match`:
find the earliest position where the literal `key` occurs immediately followed by
at least one character satisfying `good`, and return the maximal run of `good`
characters after the key (the regex' first capture group). -/
def scanKeyCapture (key : List Char) (good : Char → Bool) : List Char → Option (List Char)
  | [] => none
  | c :: t =>
    match dropPref key (c :: t) with
    | some rest =>
      let cap := rest.takeWhile good
      if cap.isEmpty then scanKeyCapture key good t else some cap
    | none => scanKeyCapture key good t

/-- Characters up to (excluding) the first `']'`; `none` when no `']'` follows. -/
def upToClose : List Char → Option (List Char)
  | [] => none
  | c :: t => if c == ']' then some [] else (upToClose t).map (c :: ·)

/-- The literal part of the regex `\[message_id:\s*([^\]]+)\]`. -/
def msgIdKey : List Char := "[message_id:".data

/-- Model of `text.match(/\[message_id:\s*([^\]]+)\]/)`: find the earliest
occurrence of `[message_id:` that is followed, before the next `]`, by at least
one character, and return those characters.  (The regex' capture group differs
from this content only in leading whitespace eaten by `\s*`; the code always
applies `.trim()` to the capture, and `trim` of the capture equals `trim` of
this content, so the model returns the un-trimmed content and the call sites
trim it.) -/
def msgIdCapture : List Char → Option (List Char)
  | [] => none
  | c :: t =>
    match dropPref msgIdKey (c :: t) with
    | some rest =>
      match upToClose rest with
      | some content => if content.isEmpty then msgIdCapture t else some content
      | none => msgIdCapture t
    | none => msgIdCapture t

/-- Does the list contain `n` consecutive characters all satisfying `good`?
Models the JS regex test `/[....]{n}/.test(s)`. -/
def hasRunN (good : Char → Bool) (n : Nat) : List Char → Bool
  | [] => decide (n = 0)
  | c :: t => (((c :: t).take n).length == n && ((c :: t).take n).all good)
      || hasRunN good n t

/-- One step of JS `String.prototype.replace` with a global single-character
pattern: every occurrence of `c` is replaced by `rep`. -/
def replaceChar (c : Char) (rep : List Char) : List Char → List Char
  | [] => []
  | x :: xs => (if x == c then rep else [x]) ++ replaceChar c rep xs

/-- JS `Array.prototype.join(sep)`. -/
def joinSep (sep : String) : List String → String
  | [] => ""
  | [x] => x
  | x :: y :: xs => x ++ sep ++ joinSep sep (y :: xs)

/-- The shared bounded-insertion-ordered-cache discipline used by every cache in
the repository (`mirroredCache` in both daemons and in `MirrorLogLogic`, and
`processedRuns`):

    cache.add(text);
    if (cache.size > BOUND) \x7b
        const first = cache.values().next().value;
        cache.delete(first);
    \x7d

A JS `Set` iterates in insertion order, so `values().next().value` is the oldest
element; adding an already-present element is a no-op (every call site checks
membership first, so the membership guard here matches `Set.add` semantics). -/
def cacheInsert (bound : Nat) (cache : List String) (x : String) : List String :=
  if x ∈ cache then cache
  else
    let c := cache ++ [x]
    if bound < c.length then c.tail else c

/-- `'\x60'` is a backtick (spelled via its code point). -/
def btk : Char := Char.ofNat 96

/-- `.replace(/"/g, '\\"').replace(/\$/g, '\\$').replace(/\x60/g, '\\\x60')` —
the three global replacements applied in source order; this exact chain appears
verbatim in both `mirror_daemon.js` and the run-correlation daemon. -/
def escapeQDB (s : String) : String :=
  ⟨replaceChar btk ['\\', btk]
    (replaceChar '$' ['\\', '$']
      (replaceChar '"' ['\\', '"'] s.data))⟩

/-- `text.length > 3900 ? text.substring(0, 3900) + '\n\n[...truncated]' : text`
(string length counted in characters; the transcripts at hand are ASCII); this
exact truncation appears verbatim in both daemons. -/
def truncate3900 (s : String) : String :=
  if 3900 < s.data.length then ⟨s.data.take 3900 ++ "\n\n[...truncated]".data⟩ else s

/-- What a single character becomes after the full three-step escape chain of
`escapeQDB`, rendered as one pass (used to characterise `escapeQDB`). -/
def escQDBchar (c : Char) : List Char :=
  if c == '"' then ['\\', '"']
  else if c == '$' then ['\\', '$']
  else if c == btk then ['\\', btk]
  else [c]

/-- One-pass rendering of the whole escape chain. -/
def escQDBlist : List Char → List Char
  | [] => []
  | c :: t => escQDBchar c ++ escQDBlist t

/-- What a single character becomes under `replace(/"/g, '\\"')` alone (the
only escaping `MirrorLogLogic.sendToTarget` performs). -/
def escQchar (c : Char) : List Char :=
  if c == '"' then ['\\', '"'] else [c]

/-- One-pass rendering of the quote-only replacement. -/
def escQlist : List Char → List Char
  | [] => []
  | c :: t => escQchar c ++ escQlist t

end MirrorStr

/-! ## The turn-flag pipeline (`mirror_daemon.js`) -/

namespace MirrorDaemon

open MirrorStr

/-- `const TELEGRAM_TARGET = '7380936103';` -/
def TELEGRAM_TARGET : String := "7380936103"

/-- `const MIRROR_TAG = '[mirrored]';` -/
def MIRROR_TAG : String := "[mirrored]"

/-- `const CACHE_SIZE = 50;` -/
def CACHE_SIZE : Nat := 50

/-- A single element of a `message.content` array.  `obj ptype ptext` is an
object element with its `type` field (when a string) and its `text` field (when
a string; a missing/absent `text` is `none` — non-string `text` values do not
occur in the transcript format and are not modelled).  `nonObjTruthy s` is a
truthy non-object element whose JS string coercion `String(x)` is `s`;
`falsyPart` is a falsy element (`null`, `0`, `''`, `false`, `undefined`). -/
inductive DPart
  | obj (ptype : Option String) (ptext : Option String)
  | nonObjTruthy (coerced : String)
  | falsyPart
deriving DecidableEq

/-- The `message.content` value: an array of parts, a string, or anything else. -/
inductive DContent
  | arr (parts : List DPart)
  | str (s : String)
  | other
deriving DecidableEq

/-- The `message` object: its `role` field and its `content` field. -/
structure DMsg where
  role : String
  content : DContent
deriving DecidableEq

/-- A parsed transcript entry: the `message` field when present and truthy. -/
structure DEntry where
  message : Option DMsg
deriving DecidableEq

/-- One raw line of the transcript file, by the outcome the code branches on:
`blank` — `!line.trim()`; `badJson` — `JSON.parse` throws; `json e` — parsed. -/
inductive DLine
  | blank
  | badJson
  | json (e : DEntry)
deriving DecidableEq

/-- The character class `[a-f0-9-]` of the final regex test
`/[a-f0-9-]\x7b36\x7d/.test(id)` in `isWebchatUserMessage`. -/
def uuidTestChar (c : Char) : Bool := c.isDigit || ('a' ≤ c && c ≤ 'f') || c == '-'

/-- `isWebchatUserMessage(text)` of `mirror_daemon.js` (the non-string/null
input cases return `false` before any of this and are handled at call sites,
which always pass a string):

    if (text.startsWith('[Telegram')) return false;
    if (text.startsWith('System:')) return false;
    if (text.startsWith('[Queued')) return false;
    if (text.startsWith('[Audio]')) return false;
    if (!text.includes('message_id:')) return false;
    const match = text.match(/\[message_id:\s*([^\]]+)\]/);
    if (!match) return false;
    const id = match[1].trim();
    return /[a-f0-9-]{36}/.test(id);
-/
def isWebchatUserMessage (text : String) : Bool :=
  if startsWithS "[Telegram" text then false
  else if startsWithS "System:" text then false
  else if startsWithS "[Queued" text then false
  else if startsWithS "[Audio]" text then false
  else if !hasSubS "message_id:" text then false
  else
    match msgIdCapture text.data with
    | none => false
    | some content =>
      let id := trimL content
      hasRunN uuidTestChar 36 id

/-- The text a `user` entry contributes to the webchat check:

    let text = '';
    if (Array.isArray(content) && content.length > 0) \x7b
        const first = content[0];
        text = (first && typeof first === 'object') ? (first.text || '') : String(first || '');
    \x7d else if (typeof content === 'string') \x7b text = content; \x7d
-/
def userText : DContent → String
  | .arr [] => ""
  | .arr (p :: _) =>
    match p with
    | .obj _ (some t) => t
    | .obj _ none => ""
    | .nonObjTruthy s => s
    | .falsyPart => ""
  | .str s => s
  | .other => ""

/-- The loop body of `extractAssistantText`: the trimmed text a single content
element contributes (`part && part.type === 'text' && part.text && part.text.trim()`
must all be truthy; then `part.text.trim()` is pushed). -/
def partText : DPart → Option String
  | .obj (some ty) (some t) =>
    if ty == "text" && t != "" && trimS t != "" then some (trimS t) else none
  | _ => none

/-- `extractAssistantText(content)`: join the trimmed non-empty `text` fields of
the `type === 'text'` elements with blank lines; `null` when none exist. -/
def extractAssistantText (content : DContent) : Option String :=
  match content with
  | .arr parts =>
    let texts := parts.filterMap partText
    if texts.isEmpty then none else some (joinSep "\n\n" texts)
  | _ => none

/-- The command string handed to `execSync`:
`openclaw message send --target "<target>" --message "<tag> <escaped>"`. -/
def daemonCommand (text : String) : String :=
  "openclaw message send --target \"" ++ TELEGRAM_TARGET ++ "\" --message \""
    ++ MIRROR_TAG ++ " " ++ escapeQDB (truncate3900 text) ++ "\""

/-- `sendToTelegram(text)` of `mirror_daemon.js`.  Returns the new cache and the
command handed to `execSync` (`none` when nothing is sent).  `execOk` is the
outcome of the external `execSync` call; the `try`/`catch` only logs, so both
outcomes leave the state identical — the branch below mirrors that `catch`
performs no state change. -/
def sendToTelegram (execOk : Bool) (cache : List String) (text : String) :
    List String × Option String :=
  if text == "" || text ∈ cache then (cache, none)
  else
    let cache' := cacheInsert CACHE_SIZE cache text
    let cmd := daemonCommand text
    if execOk then (cache', some cmd) else (cache', some cmd)

/-- `const match = text.match(/\[message_id:\s*([^\]]+)\]/); const id = match[1].trim();`
— the id the code extracts from a text and then tests. -/
def extractMessageId (text : String) : Option String :=
  (msgIdCapture text.data).map (fun content => (⟨trimL content⟩ : String))

/-- Is a content element a tool-call object?  (Vocabulary for stating the
"assistant turn with tool calls only, no text" scenario of the spec.) -/
def isToolCallPart : DPart → Bool
  | .obj ty _ => ty == some "toolCall"
  | _ => false

/-- The daemon's mutable state relevant to one line: `prevUserIsWebchat` and
`mirroredCache`. -/
structure DState where
  prevUserIsWebchat : Bool
  mirroredCache : List String
deriving DecidableEq

/-- `processLine(line)` of `mirror_daemon.js`, as a state transformer that also
returns the command handed to the send capability, when any. -/
def processLine (execOk : Bool) (st : DState) : DLine → DState × Option String
  | .blank => (st, none)
  | .badJson => (st, none)
  | .json e =>
    match e.message with
    | none => (st, none)
    | some m =>
      if m.role == "user" then
        ({ st with prevUserIsWebchat := isWebchatUserMessage (userText m.content) }, none)
      else if m.role == "assistant" && st.prevUserIsWebchat then
        match extractAssistantText m.content with
        | some t =>
          let (c, cmd) := sendToTelegram execOk st.mirroredCache t
          ({ st with mirroredCache := c }, cmd)
        | none => (st, none)
      else
        (st, none)

end MirrorDaemon

/-! ## The run-correlation pipeline (the log-tailing daemon) -/

namespace RunDaemon

open MirrorStr

/-- `const TELEGRAM_TARGET = '7380936103';` -/
def TELEGRAM_TARGET : String := "7380936103"

/-- `const IGNORE_TAG = '[mirrored]';` -/
def IGNORE_TAG : String := "[mirrored]"

/-- `const CACHE_SIZE = 50;` -/
def CACHE_SIZE : Nat := 50

/-- `const PROCESSED_RUNS_MAX = 100;` -/
def PROCESSED_RUNS_MAX : Nat := 100

/-- `entry['0']` as `parseSubsystem` reads it: `absent` — missing, falsy, or
not a string; `badInner` — a string on which the inner `JSON.parse` throws;
`inner sub` — a string parsing to a value whose `.subsystem` is the truthy
string `sub` when `some`, and anything falsy/absent when `none`. -/
inductive Field0
  | absent
  | badInner
  | inner (subsystem : Option String)
deriving DecidableEq

/-- `entry['1']`: a string or not. -/
inductive JField
  | notStr
  | str (s : String)
deriving DecidableEq

/-- A parsed log entry, restricted to the fields the code reads. -/
structure REntry where
  field0 : Field0
  field1 : JField
deriving DecidableEq

/-- One raw line of the log file: whitespace-only / empty, JSON-parse failure,
or a parsed entry. -/
inductive RLine
  | blank
  | badJson
  | json (e : REntry)
deriving DecidableEq

/-- `parseSubsystem(entry)`:

    const field0 = entry && entry['0'];
    if (!field0 || typeof field0 !== 'string') return null;
    try \x7b return JSON.parse(field0).subsystem || null; \x7d catch \x7b return null; \x7d
-/
def parseSubsystem : Field0 → Option String
  | .inner (some s) => if s == "" then none else some s
  | _ => none

/-- The character class `[a-zA-Z0-9_-]` of the `sessionId=`/`runId=` regexes. -/
def runClass (c : Char) : Bool := c.isAlpha || c.isDigit || c == '_' || c == '-'

/-- Result of `parseRunStart`. -/
structure RunStartInfo where
  sessionId : String
  runId : String
  messageChannel : String
deriving DecidableEq

/-- Result of `parseWebchatRunDone`. -/
structure RunDoneInfo where
  sessionId : String
  runId : String
deriving DecidableEq

/-- `parseRunStart(line)`: an `agent/embedded` entry whose message contains
`embedded run start:` and yields `sessionId=`, `runId=` (class `[a-zA-Z0-9_-]+`)
and `messageChannel=` (class `\S+`) captures. -/
def parseRunStart : RLine → Option RunStartInfo
  | .blank => none
  | .badJson => none
  | .json e =>
    match parseSubsystem e.field0 with
    | none => none
    | some sub =>
      if sub == "agent/embedded" then
        match e.field1 with
        | .notStr => none
        | .str m =>
          if hasSubS "embedded run start:" m then
            match scanKeyCapture "sessionId=".data runClass m.data,
                  scanKeyCapture "runId=".data runClass m.data,
                  scanKeyCapture "messageChannel=".data (fun c => !isWs c) m.data with
            | some sid, some rid, some ch => some ⟨⟨sid⟩, ⟨rid⟩, ⟨ch⟩⟩
            | _, _, _ => none
          else none
      else none

/-- `parseWebchatRunDone(line)`: an `agent/embedded` entry whose message
contains `embedded run done:` and yields `sessionId=` and `runId=` captures. -/
def parseWebchatRunDone : RLine → Option RunDoneInfo
  | .blank => none
  | .badJson => none
  | .json e =>
    match parseSubsystem e.field0 with
    | none => none
    | some sub =>
      if sub == "agent/embedded" then
        match e.field1 with
        | .notStr => none
        | .str m =>
          if hasSubS "embedded run done:" m then
            match scanKeyCapture "sessionId=".data runClass m.data,
                  scanKeyCapture "runId=".data runClass m.data with
            | some sid, some rid => some ⟨⟨sid⟩, ⟨rid⟩⟩
            | _, _ => none
          else none
      else none

/-- `shouldIgnore(text)` (echo-loop prevention; the `!text` null case is
handled by truthiness at the call site, which always passes a string here):

    if (!text) return true;
    if (text.includes(IGNORE_TAG)) return true;
    if (text.trim().length === 0) return true;
    return false;
-/
def shouldIgnore (text : String) : Bool :=
  if text == "" then true
  else if hasSubS IGNORE_TAG text then true
  else if (trimS text).data.length == 0 then true
  else false

/-- Keys of the `webchatRuns` map, in insertion order. -/
def keys (m : List (String × String)) : List String := m.map Prod.fst

/-- JS `Map.prototype.get`. -/
def mapGet (m : List (String × String)) (k : String) : Option String :=
  (m.find? (fun p => p.1 == k)).map Prod.snd

/-- JS `Map.prototype.set`: overwrite in place when the key exists (keeping the
original insertion position), append otherwise. -/
def mapSet (m : List (String × String)) (k v : String) : List (String × String) :=
  if m.any (fun p => p.1 == k) then m.map (fun p => if p.1 == k then (k, v) else p)
  else m ++ [(k, v)]

/-- JS `Map.prototype.delete`: remove the entry with the given key. -/
def mapDelete (m : List (String × String)) (k : String) : List (String × String) :=
  m.filter (fun p => p.1 != k)

/-- The correlation state: `webchatRuns` (runId → sessionId) and the
`processedRuns` dedup set. -/
structure RState where
  webchatRuns : List (String × String)
  processedRuns : List String
deriving DecidableEq

/-- The forward trigger emitted when a tracked run completes; the text itself is
fetched afterwards (in a `setTimeout` callback) from the session transcript. -/
structure Trigger where
  runId : String
  sessionId : String
deriving DecidableEq

/-- `processLine(line)` of the run-correlation daemon, as a state transformer
returning the forward trigger, when any.  The leading
`if (!line || !line.trim()) return;` guard is subsumed by the `blank` cases of
the two parsers (both return `null` on such lines). -/
def processLine (st : RState) (ℓ : RLine) : RState × Option Trigger :=
  match parseRunStart ℓ with
  | some si =>
    if si.messageChannel == "webchat" then
      ({ st with webchatRuns := mapSet st.webchatRuns si.runId si.sessionId }, none)
    else (st, none)
  | none =>
    match parseWebchatRunDone ℓ with
    | none => (st, none)
    | some di =>
      match mapGet st.webchatRuns di.runId with
      | none => (st, none)
      | some sessionId =>
        let runs' := mapDelete st.webchatRuns di.runId
        if di.runId ∈ st.processedRuns then
          ({ st with webchatRuns := runs' }, none)
        else
          ({ webchatRuns := runs',
             processedRuns := cacheInsert PROCESSED_RUNS_MAX st.processedRuns di.runId },
           some ⟨di.runId, sessionId⟩)

/-- Folding `processLine` over a line sequence (triggers discarded). -/
def processLines (st : RState) : List RLine → RState
  | [] => st
  | ℓ :: ls => processLines (processLine st ℓ).1 ls

/-- The command string handed to `execSync` by this daemon's `sendToTelegram`. -/
def runCommand (text : String) : String :=
  "openclaw message send --target \"" ++ TELEGRAM_TARGET ++ "\" --message \""
    ++ IGNORE_TAG ++ " " ++ escapeQDB (truncate3900 text) ++ "\""

/-- `sendToTelegram(text)` of the run-correlation daemon (cache check, cache
insert with eviction, truncation, escaping, `execSync` whose `try`/`catch`
leaves the state identical on success and on failure). -/
def sendToTelegram (execOk : Bool) (cache : List String) (text : String) :
    List String × Option String :=
  if text ∈ cache then (cache, none)
  else
    let cache' := cacheInsert CACHE_SIZE cache text
    let cmd := runCommand text
    if execOk then (cache', some cmd) else (cache', some cmd)

/-- The body of the `setTimeout` callback run after a trigger:

    const text = getLastAssistantText(sessionId);
    if (text && !shouldIgnore(text)) \x7b sendToTelegram(text); \x7d

`text` is the result of the external transcript lookup (`null` or a string). -/
def deliverRunText (execOk : Bool) (cache : List String) (text : Option String) :
    List String × Option String :=
  match text with
  | none => (cache, none)
  | some t =>
    if t != "" && !shouldIgnore t then sendToTelegram execOk cache t else (cache, none)

end RunDaemon

/-! ## `MirrorLogLogic` (`mirror_logic.js`) -/

namespace MirrorLogic

open MirrorStr

/-- A JS value as the truthiness/typeof tests of `shouldMirror` see it. -/
inductive JSVal
  | str (s : String)
  | truthyNonStr
  | falsy
deriving DecidableEq

/-- JS truthiness (`''` is falsy; every non-empty string is truthy). -/
def JSVal.truthy : JSVal → Bool
  | .str s => s != ""
  | .truthyNonStr => true
  | .falsy => false

/-- JS `a || b`. -/
def jsOr (a b : JSVal) : JSVal := if a.truthy then a else b

/-- A parsed log entry, restricted to what `shouldMirror` reads.
`stringifyHasWebchat` abstracts the external
`JSON.stringify(entry).toLowerCase().includes('webchat')` test (the full entry
is not modelled, only this boolean outcome of serialising it). -/
structure MLEntry where
  metaName : Option String
  stringifyHasWebchat : Bool
  field0 : JSVal
  message : JSVal
deriving DecidableEq

/-- One raw line: `JSON.parse` failure (also covers empty lines) or an entry. -/
inductive MLLine
  | badJson
  | json (e : MLEntry)
deriving DecidableEq

/-- `entry._meta?.name?.includes('webchat') || JSON.stringify(entry).toLowerCase().includes('webchat')`. -/
def isWebchat (e : MLEntry) : Bool :=
  (match e.metaName with
   | some n => hasSubS "webchat" n
   | none => false) || e.stringifyHasWebchat

/-- `const content = entry[0] || entry.message || "";` -/
def mlContent (e : MLEntry) : JSVal := jsOr (jsOr e.field0 e.message) (.str "")

/-- `MirrorLogLogic.shouldMirror(line)` (the `typeof content !== 'string'`
disjunct of the first guard appears here as the non-string match arms). -/
def shouldMirror (ignoreTag : String) (cache : List String) : MLLine → Option String
  | .badJson => none
  | .json e =>
    match mlContent e with
    | .str s =>
      if !isWebchat e || s == "" then none
      else if hasSubS ignoreTag s then none
      else if startsWithS "[" s || hasSubS "http://127.0.0.1" s then none
      else if s ∈ cache then none
      else some (trimS s)
    | .truthyNonStr => none
    | .falsy => none

/-- `text.replace(/"/g, '\\"')` — the only escaping `sendToTarget` performs. -/
def escapeQuoteOnly (s : String) : String := ⟨replaceChar '"' ['\\', '"'] s.data⟩

/-- The command string `sendToTarget` builds. -/
def logicCommand (targetId ignoreTag text : String) : String :=
  "openclaw message send --target \"" ++ targetId ++ "\" --message \""
    ++ ignoreTag ++ " " ++ escapeQuoteOnly text ++ "\""

/-- `MirrorLogLogic.sendToTarget(text)`: returns the new cache and the command
returned to the caller (`none` models the `false` return for empty text). -/
def sendToTarget (targetId ignoreTag : String) (cacheSize : Nat)
    (cache : List String) (text : String) : List String × Option String :=
  if text == "" then (cache, none)
  else (cacheInsert cacheSize cache text, some (logicCommand targetId ignoreTag text))

end MirrorLogic

/-! ## Shape definitions used to state the fingerprinting claims

These two follow the spec's wording (not the code); they are compared against
the code's behaviour in the fingerprinting theorems. -/

namespace SpecShapes

/-- Modelled from the spec: "a purely numeric shape" for a message id. -/
def numericShape (s : String) : Bool := !s.data.isEmpty && s.data.all Char.isDigit

/-- Lowercase hexadecimal digit. -/
def isHexLower (c : Char) : Bool := c.isDigit || ('a' ≤ c && c ≤ 'f')

/-- Modelled from the spec: "a UUID shape (32 hex digits with separators)" —
36 characters, hex digits and dashes only, with the four dashes at the
canonical positions 8, 13, 18 and 23. -/
def uuidShape (s : String) : Bool :=
  s.data.length == 36
    && s.data.all (fun c => isHexLower c || c == '-')
    && (s.data.getD 8 ' ' == '-') && (s.data.getD 13 ' ' == '-')
    && (s.data.getD 18 ' ' == '-') && (s.data.getD 23 ' ' == '-')
    && ((s.data.filter (fun c => c == '-')).length == 4)

end SpecShapes

/-! ## Helper lemmas -/

namespace MirrorStr

theorem startsWithL_self_append (p l : List Char) : startsWithL p (p ++ l) = true := by
  induction p with
  | nil => simp [startsWithL]
  | cons c cs ih => simp [startsWithL, ih]

theorem hasSubL_of_middle (n a b : List Char) : hasSubL n (a ++ n ++ b) = true := by
  induction a with
  | nil =>
    cases n with
    | nil =>
      cases b with
      | nil => simp [hasSubL, List.isEmpty]
      | cons c t => simp [hasSubL, startsWithL]
    | cons c cs =>
      simp only [hasSubL, List.cons_append, Bool.or_eq_true]
      exact Or.inl (by simpa using startsWithL_self_append (c :: cs) b)
  | cons c cs ih => simpa [hasSubL] using Or.inr ih

theorem cacheInsert_length_le {bound : Nat} {cache : List String} (x : String)
    (h : cache.length ≤ bound) : (cacheInsert bound cache x).length ≤ bound := by
  unfold cacheInsert
  by_cases hx : x ∈ cache
  · simpa [hx]
  · simp only [hx, if_false]
    by_cases hb : bound < (cache ++ [x]).length
    · simp only [hb, if_true]
      have hne : cache ++ [x] ≠ [] := by simp
      rw [List.length_tail]
      simp only [List.length_append, List.length_singleton]
      omega
    · simp only [hb, if_false]
      simp only [List.length_append, List.length_singleton] at hb ⊢
      omega

theorem foldl_cacheInsert_length_le (bound : Nat) (xs : List String) :
    ∀ cache : List String, cache.length ≤ bound →
      (xs.foldl (cacheInsert bound) cache).length ≤ bound := by
  induction xs with
  | nil => intro cache h; simpa using h
  | cons x t ih =>
    intro cache h
    exact ih _ (cacheInsert_length_le x h)

theorem cacheInsert_of_not_mem_of_le {bound : Nat} {cache : List String} {x : String}
    (hx : x ∉ cache) (h : cache.length + 1 ≤ bound) :
    cacheInsert bound cache x = cache ++ [x] := by
  unfold cacheInsert
  have hb : ¬ bound < cache.length + 1 := by omega
  simp [hx, hb]

theorem foldl_cacheInsert_fill (bound : Nat) :
    ∀ (l cache : List String), (cache ++ l).Nodup → (cache ++ l).length ≤ bound →
      l.foldl (cacheInsert bound) cache = cache ++ l := by
  intro l
  induction l with
  | nil => intro cache _ _; simp
  | cons x t ih =>
    intro cache hnd hlen
    have hx : x ∉ cache := by
      intro hmem
      have := List.disjoint_of_nodup_append hnd
      exact this hmem (by simp)
    have hle : cache.length + 1 ≤ bound := by
      simp only [List.length_append, List.length_cons] at hlen; omega
    have step : cacheInsert bound cache x = cache ++ [x] :=
      cacheInsert_of_not_mem_of_le hx hle
    have hnd' : ((cache ++ [x]) ++ t).Nodup := by
      simpa [List.append_assoc] using hnd
    have hlen' : ((cache ++ [x]) ++ t).length ≤ bound := by
      simpa [List.append_assoc] using hlen
    calc (x :: t).foldl (cacheInsert bound) cache
        = t.foldl (cacheInsert bound) (cache ++ [x]) := by rw [List.foldl_cons, step]
      _ = (cache ++ [x]) ++ t := ih (cache ++ [x]) hnd' hlen'
      _ = cache ++ x :: t := by simp

theorem foldl_cacheInsert_evict_oldest {bound : Nat} {xs : List String}
    (hnd : xs.Nodup) (hlen : xs.length = bound + 1) :
    xs.foldl (cacheInsert bound) [] = xs.tail := by
  have hne : xs ≠ [] := by intro h; rw [h] at hlen; simp at hlen
  have hdecomp : xs.dropLast ++ [xs.getLast hne] = xs := List.dropLast_append_getLast hne
  have hlen' : xs.dropLast.length = bound := by
    rw [List.length_dropLast, hlen]; omega
  have hnd' : (xs.dropLast ++ [xs.getLast hne]).Nodup := by rw [hdecomp]; exact hnd
  have hfill : xs.dropLast.foldl (cacheInsert bound) [] = xs.dropLast := by
    have h1 : (([] : List String) ++ xs.dropLast).Nodup := by
      rw [List.nil_append]
      exact List.Nodup.sublist (List.dropLast_sublist xs) hnd
    have h2 : (([] : List String) ++ xs.dropLast).length ≤ bound := by simp [hlen']
    simpa using foldl_cacheInsert_fill bound xs.dropLast [] h1 h2
  have hlast : xs.getLast hne ∉ xs.dropLast := by
    have := List.disjoint_of_nodup_append hnd'
    intro hmem
    exact this hmem (by simp)
  have hstep : cacheInsert bound xs.dropLast (xs.getLast hne) = xs.tail := by
    unfold cacheInsert
    have hb : bound < (xs.dropLast ++ [xs.getLast hne]).length := by
      simp only [List.length_append, List.length_singleton, hlen']; omega
    simp only [hlast, if_false, hb, if_true]
    rw [hdecomp]
  calc xs.foldl (cacheInsert bound) []
      = (xs.dropLast ++ [xs.getLast hne]).foldl (cacheInsert bound) [] := by rw [hdecomp]
    _ = cacheInsert bound (xs.dropLast.foldl (cacheInsert bound) []) (xs.getLast hne) := by
        rw [List.foldl_append]; simp
    _ = xs.tail := by rw [hfill, hstep]

theorem cacheInsert_of_mem {bound : Nat} {cache : List String} {x : String}
    (hx : x ∈ cache) : cacheInsert bound cache x = cache := by
  simp [cacheInsert, hx]

theorem mem_cacheInsert_self {bound : Nat} {cache : List String} (x : String)
    (hb : 1 ≤ bound) : x ∈ cacheInsert bound cache x := by
  unfold cacheInsert
  by_cases hx : x ∈ cache
  · simp only [hx, if_true]
  · by_cases hlt : bound < cache.length + 1
    · have hcne : cache ≠ [] := by
        intro h; subst h; simp at hlt; omega
      cases cache with
      | nil => exact absurd rfl hcne
      | cons c t =>
        simp only [hx, if_false, List.cons_append, List.tail_cons]
        split <;> simp
    · simp [hx, hlt]

end MirrorStr

/-! ## Claim theorems -/

/-- **C8.** Every bounded cache of the repository (`mirroredCache` in both
daemons and in `MirrorLogLogic`, `processedRuns`) follows the `cacheInsert`
discipline: after any sequence of insertions starting from the empty cache it
holds at most `bound` entries, and inserting `bound + 1` distinct items into an
empty cache bounded at `bound` evicts exactly the oldest (first-inserted) item
— that item is no longer a member (so it is eligible for acceptance again)
while the `bound` most recent items remain members (suppressed). -/
theorem c8_bounded_cache_eviction (bound : Nat) (xs : List String) :
    (xs.foldl (MirrorStr.cacheInsert bound) []).length ≤ bound
    ∧ (xs.Nodup → xs.length = bound + 1 →
        xs.foldl (MirrorStr.cacheInsert bound) [] = xs.tail
        ∧ (∀ h, xs.head? = some h → h ∉ xs.foldl (MirrorStr.cacheInsert bound) [])
        ∧ ∀ x ∈ xs.tail, x ∈ xs.foldl (MirrorStr.cacheInsert bound) []) := by
  constructor
  · exact MirrorStr.foldl_cacheInsert_length_le bound xs [] (by simp)
  · intro hnd hlen
    have hev := MirrorStr.foldl_cacheInsert_evict_oldest hnd hlen
    refine ⟨hev, ?_, ?_⟩
    · intro h hh
      rw [hev]
      cases xs with
      | nil => simp at hh
      | cons a t =>
        simp only [List.head?_cons, Option.some.injEq] at hh
        subst hh
        simpa using (List.nodup_cons.mp hnd).1
    · intro x hx
      rw [hev]; exact hx

/-- Witness for C8 at `bound = 3` and the four distinct items of the repo's own
regression test: the cache ends as the three most recent items, the oldest is
evicted and eligible again, the rest remain suppressed. -/
theorem c8_witness :
    (["a", "b", "c", "d"].foldl (MirrorStr.cacheInsert 3) [] = ["b", "c", "d"])
    ∧ "a" ∉ ["a", "b", "c", "d"].foldl (MirrorStr.cacheInsert 3) []
    ∧ "b" ∈ ["a", "b", "c", "d"].foldl (MirrorStr.cacheInsert 3) [] := by
  obtain ⟨-, h⟩ := c8_bounded_cache_eviction 3 ["a", "b", "c", "d"]
  obtain ⟨h1, h2, h3⟩ := h (by decide) (by decide)
  exact ⟨h1, h2 "a" rfl, h3 "b" (by decide)⟩

/-- **C7.** Acceptance is cache-then-send in both daemons: the outcome of the
external `execSync` call never affects the resulting state or command (so a
failed send neither removes the text from `mirroredCache` nor retries), every
accepted text is in the cache immediately after the call, and a second
detection of the identical text afterwards is suppressed (no command emitted,
cache unchanged) — even when the first send failed. -/
theorem c7_cache_then_send :
    (∀ ok cache text, MirrorDaemon.sendToTelegram ok cache text
        = MirrorDaemon.sendToTelegram true cache text)
    ∧ (∀ ok cache text c' cmd,
        MirrorDaemon.sendToTelegram ok cache text = (c', some cmd) →
          text ∈ c' ∧ ∀ ok', MirrorDaemon.sendToTelegram ok' c' text = (c', none))
    ∧ (∀ ok cache text, RunDaemon.sendToTelegram ok cache text
        = RunDaemon.sendToTelegram true cache text)
    ∧ (∀ ok cache text c' cmd,
        RunDaemon.sendToTelegram ok cache text = (c', some cmd) →
          text ∈ c' ∧ ∀ ok', RunDaemon.sendToTelegram ok' c' text = (c', none)) := by
  refine ⟨?_, ?_, ?_, ?_⟩
  · intro ok cache text
    cases ok <;> simp [MirrorDaemon.sendToTelegram]
  · intro ok cache text c' cmd heq
    rw [MirrorDaemon.sendToTelegram] at heq
    split at heq
    · exact absurd heq (by simp)
    next hg =>
      have heq' : MirrorStr.cacheInsert MirrorDaemon.CACHE_SIZE cache text = c' := by
        cases ok <;> exact congrArg Prod.fst heq
      have hmem : text ∈ c' := heq' ▸ MirrorStr.mem_cacheInsert_self text (by decide)
      refine ⟨hmem, fun ok' => ?_⟩
      rw [MirrorDaemon.sendToTelegram]
      simp [hmem]
  · intro ok cache text
    cases ok <;> simp [RunDaemon.sendToTelegram]
  · intro ok cache text c' cmd heq
    rw [RunDaemon.sendToTelegram] at heq
    split at heq
    · exact absurd heq (by simp)
    next hg =>
      have heq' : MirrorStr.cacheInsert RunDaemon.CACHE_SIZE cache text = c' := by
        cases ok <;> exact congrArg Prod.fst heq
      have hmem : text ∈ c' := heq' ▸ MirrorStr.mem_cacheInsert_self text (by decide)
      refine ⟨hmem, fun ok' => ?_⟩
      rw [RunDaemon.sendToTelegram]
      simp [hmem]

/-- Witness for C7: a failed first send of `"Hello"` from an empty cache caches
the text anyway, and the second detection is suppressed. -/
theorem c7_witness :
    "Hello" ∈ (["Hello"] : List String)
    ∧ MirrorDaemon.sendToTelegram true ["Hello"] "Hello" = (["Hello"], none) := by
  have h := c7_cache_then_send.2.1 false [] "Hello" ["Hello"]
      (MirrorDaemon.daemonCommand "Hello") (by rfl)
  exact ⟨h.1, h.2 true⟩

/-! ## Map lemmas for the run-correlation state -/

namespace RunDaemon

theorem any_eq_true_iff_mem_keys (m : List (String × String)) (k : String) :
    m.any (fun p => p.1 == k) = true ↔ k ∈ keys m := by
  induction m with
  | nil => simp [keys]
  | cons p t ih =>
    simp only [List.any_cons, Bool.or_eq_true, keys, List.map_cons, List.mem_cons]
    constructor
    · rintro (h | h)
      · exact Or.inl (by simpa [eq_comm] using (beq_iff_eq.mp h))
      · exact Or.inr (by simpa [keys] using ih.mp h)
    · rintro (h | h)
      · exact Or.inl (beq_iff_eq.mpr h.symm)
      · exact Or.inr (ih.mpr (by simpa [keys] using h))

theorem mapGet_eq_none_iff (m : List (String × String)) (k : String) :
    mapGet m k = none ↔ k ∉ keys m := by
  unfold mapGet
  rw [Option.map_eq_none', List.find?_eq_none]
  constructor
  · intro h hk
    simp only [keys, List.mem_map] at hk
    obtain ⟨p, hp, hfst⟩ := hk
    exact h p hp (beq_iff_eq.mpr hfst)
  · intro h p hp hpk
    refine h ?_
    simp only [keys, List.mem_map]
    exact ⟨p, hp, beq_iff_eq.mp hpk⟩

theorem find?_map_overwrite (k v : String) :
    ∀ m : List (String × String), m.any (fun p => p.1 == k) = true →
      (m.map (fun p => if p.1 == k then (k, v) else p)).find? (fun p => p.1 == k)
        = some (k, v) := by
  intro m
  induction m with
  | nil => intro h; simp at h
  | cons p t ih =>
    intro h
    cases hp : (p.1 == k) with
    | true =>
      rw [List.map_cons, if_pos hp, List.find?_cons_of_pos]
      exact beq_self_eq_true k
    | false =>
      have h' : t.any (fun p => p.1 == k) = true := by
        simpa [List.any_cons, hp] using h
      rw [List.map_cons, if_neg (by simp [hp]),
        List.find?_cons_of_neg _ (by simp [hp])]
      exact ih h'

theorem find?_append_new (k v : String) :
    ∀ m : List (String × String), m.find? (fun p => p.1 == k) = none →
      (m ++ [(k, v)]).find? (fun p => p.1 == k) = some (k, v) := by
  intro m
  induction m with
  | nil =>
    intro _
    rw [List.nil_append, List.find?_cons_of_pos]
    exact beq_self_eq_true k
  | cons p t ih =>
    intro h
    cases hp : (p.1 == k) with
    | true =>
      rw [List.find?_cons_of_pos (p := fun q : String × String => q.1 == k) _ hp] at h
      exact Option.noConfusion h
    | false =>
      rw [List.find?_cons_of_neg _ (by simp [hp])] at h
      rw [List.cons_append, List.find?_cons_of_neg _ (by simp [hp])]
      exact ih h

theorem mapGet_mapSet_self (m : List (String × String)) (k v : String) :
    mapGet (mapSet m k v) k = some v := by
  unfold mapGet mapSet
  by_cases h : m.any (fun p => p.1 == k) = true
  · rw [if_pos h, find?_map_overwrite k v m h]
    rfl
  · rw [if_neg h, find?_append_new k v m ?hn]
    · rfl
    case hn =>
      rw [List.find?_eq_none]
      intro p hp hpk
      exact h (List.any_eq_true.mpr ⟨p, hp, hpk⟩)

theorem keys_mapDelete_not_mem (m : List (String × String)) (k : String) :
    k ∉ keys (mapDelete m k) := by
  intro hk
  simp only [keys, mapDelete, List.mem_map] at hk
  obtain ⟨p, hp, hfst⟩ := hk
  have := (List.mem_filter.mp hp).2
  simp only [bne_iff_ne, ne_eq] at this
  exact this (by rw [hfst])

theorem mem_keys_mapDelete (m : List (String × String)) (k k' : String) :
    k' ∈ keys (mapDelete m k) → k' ∈ keys m := by
  intro hk
  simp only [keys, mapDelete, List.mem_map] at hk ⊢
  obtain ⟨p, hp, hfst⟩ := hk
  exact ⟨p, (List.mem_filter.mp hp).1, hfst⟩

theorem keys_map_overwrite (k v : String) :
    ∀ m : List (String × String),
      keys (m.map (fun p => if p.1 == k then (k, v) else p)) = keys m := by
  intro m
  induction m with
  | nil => rfl
  | cons p t ih =>
    by_cases hp : (p.1 == k) = true
    · simp only [keys, List.map_cons, if_pos hp] at ih ⊢
      rw [ih, beq_iff_eq.mp hp]
    · simp only [keys, List.map_cons, if_neg hp] at ih ⊢
      rw [ih]

theorem keys_mapSet (m : List (String × String)) (k v : String) :
    keys (mapSet m k v) = if k ∈ keys m then keys m else keys m ++ [k] := by
  unfold mapSet
  by_cases h : m.any (fun p => p.1 == k) = true
  · rw [if_pos h, if_pos ((any_eq_true_iff_mem_keys m k).mp h), keys_map_overwrite]
  · rw [if_neg h, if_neg (fun hk => h ((any_eq_true_iff_mem_keys m k).mpr hk))]
    simp [keys]

theorem keys_mapDelete_sublist (m : List (String × String)) (k : String) :
    List.Sublist (keys (mapDelete m k)) (keys m) := by
  simpa [keys, mapDelete] using
    List.Sublist.map Prod.fst (List.filter_sublist m)

theorem keys_nodup_processLine {st : RState} (ℓ : RLine)
    (h : (keys st.webchatRuns).Nodup) :
    (keys (processLine st ℓ).1.webchatRuns).Nodup := by
  cases hs : parseRunStart ℓ with
  | some si =>
    by_cases hc : (si.messageChannel == "webchat") = true
    · simp only [processLine, hs, hc, if_true, keys_mapSet]
      by_cases hk : si.runId ∈ keys st.webchatRuns
      · simpa [hk] using h
      · simp only [hk, if_false]
        simpa [List.nodup_append] using ⟨h, hk⟩
    · simpa [processLine, hs, hc] using h
  | none =>
    cases hd : parseWebchatRunDone ℓ with
    | none => simpa [processLine, hs, hd] using h
    | some di =>
      cases hg : mapGet st.webchatRuns di.runId with
      | none => simpa [processLine, hs, hd, hg] using h
      | some sid =>
        have hsub := keys_mapDelete_sublist st.webchatRuns di.runId
        by_cases hp : di.runId ∈ st.processedRuns
        · simpa [processLine, hs, hd, hg, hp] using List.Nodup.sublist hsub h
        · simpa [processLine, hs, hd, hg, hp] using List.Nodup.sublist hsub h

theorem keys_nodup_processLines (ls : List RLine) :
    ∀ st : RState, (keys st.webchatRuns).Nodup →
      (keys (processLines st ls).webchatRuns).Nodup := by
  induction ls with
  | nil => intro st h; simpa [processLines] using h
  | cons ℓ t ih =>
    intro st h
    exact ih _ (keys_nodup_processLine ℓ h)

end RunDaemon

/-- **C3.** Run-correlation idempotence: starting from any state in which the
run id is not yet processed, after a source-channel (`webchat`) RunStart line
records the run, delivering the matching RunDone line twice produces exactly
one forward trigger — the first delivery triggers, the second delivery emits
nothing and leaves the `webchatRuns`/`processedRuns` state unchanged. -/
theorem c3_rundone_idempotent
    (st0 : RunDaemon.RState) (startLine doneLine : RunDaemon.RLine)
    (si : RunDaemon.RunStartInfo) (di : RunDaemon.RunDoneInfo)
    (hstart : RunDaemon.parseRunStart startLine = some si)
    (hch : si.messageChannel = "webchat")
    (hnostart : RunDaemon.parseRunStart doneLine = none)
    (hdone : RunDaemon.parseWebchatRunDone doneLine = some di)
    (hrid : di.runId = si.runId)
    (hnp : si.runId ∉ st0.processedRuns) :
    (RunDaemon.processLine (RunDaemon.processLine st0 startLine).1 doneLine).2
        = some ⟨si.runId, si.sessionId⟩
    ∧ (RunDaemon.processLine
        (RunDaemon.processLine (RunDaemon.processLine st0 startLine).1 doneLine).1
        doneLine).2 = none
    ∧ (RunDaemon.processLine
        (RunDaemon.processLine (RunDaemon.processLine st0 startLine).1 doneLine).1
        doneLine).1
      = (RunDaemon.processLine (RunDaemon.processLine st0 startLine).1 doneLine).1 := by
  have hch' : (si.messageChannel == "webchat") = true := beq_iff_eq.mpr hch
  have h1 : RunDaemon.processLine st0 startLine
      = ({ st0 with webchatRuns :=
            RunDaemon.mapSet st0.webchatRuns si.runId si.sessionId }, none) := by
    simp [RunDaemon.processLine, hstart, hch']
  have hget : RunDaemon.mapGet
      (RunDaemon.mapSet st0.webchatRuns si.runId si.sessionId) di.runId
        = some si.sessionId := by
    rw [hrid]
    exact RunDaemon.mapGet_mapSet_self st0.webchatRuns si.runId si.sessionId
  have hnp' : di.runId ∉ st0.processedRuns := by rw [hrid]; exact hnp
  have h2 : RunDaemon.processLine
      ({ st0 with webchatRuns :=
          RunDaemon.mapSet st0.webchatRuns si.runId si.sessionId } : RunDaemon.RState)
      doneLine
      = (⟨RunDaemon.mapDelete
            (RunDaemon.mapSet st0.webchatRuns si.runId si.sessionId) di.runId,
          MirrorStr.cacheInsert RunDaemon.PROCESSED_RUNS_MAX st0.processedRuns di.runId⟩,
         some ⟨di.runId, si.sessionId⟩) := by
    simp [RunDaemon.processLine, hnostart, hdone, hget, hnp']
  have hget2 : RunDaemon.mapGet
      (RunDaemon.mapDelete
        (RunDaemon.mapSet st0.webchatRuns si.runId si.sessionId) di.runId) di.runId
        = none :=
    (RunDaemon.mapGet_eq_none_iff _ _).mpr
      (RunDaemon.keys_mapDelete_not_mem _ _)
  have h3 : RunDaemon.processLine
      (⟨RunDaemon.mapDelete
          (RunDaemon.mapSet st0.webchatRuns si.runId si.sessionId) di.runId,
        MirrorStr.cacheInsert RunDaemon.PROCESSED_RUNS_MAX st0.processedRuns di.runId⟩ :
        RunDaemon.RState) doneLine
      = (⟨RunDaemon.mapDelete
            (RunDaemon.mapSet st0.webchatRuns si.runId si.sessionId) di.runId,
          MirrorStr.cacheInsert RunDaemon.PROCESSED_RUNS_MAX st0.processedRuns di.runId⟩,
         none) := by
    simp [RunDaemon.processLine, hnostart, hdone, hget2]
  rw [h1]
  simp only [h2, h3]
  exact ⟨by rw [hrid], trivial, trivial⟩

/-- Witness for C3 on concrete log lines: a `webchat` run start for `r1`
followed by the same run-done line twice triggers exactly once. -/
theorem c3_witness :
    (RunDaemon.processLine
      (RunDaemon.processLine ⟨[], []⟩
        (RunDaemon.RLine.json ⟨RunDaemon.Field0.inner (some "agent/embedded"),
          RunDaemon.JField.str
            "embedded run start: sessionId=s1 runId=r1 messageChannel=webchat"⟩)).1
      (RunDaemon.RLine.json ⟨RunDaemon.Field0.inner (some "agent/embedded"),
        RunDaemon.JField.str "embedded run done: sessionId=s1 runId=r1"⟩)).2
      = some ⟨"r1", "s1"⟩
    ∧ (RunDaemon.processLine
        (RunDaemon.processLine
          (RunDaemon.processLine ⟨[], []⟩
            (RunDaemon.RLine.json ⟨RunDaemon.Field0.inner (some "agent/embedded"),
              RunDaemon.JField.str
                "embedded run start: sessionId=s1 runId=r1 messageChannel=webchat"⟩)).1
          (RunDaemon.RLine.json ⟨RunDaemon.Field0.inner (some "agent/embedded"),
            RunDaemon.JField.str "embedded run done: sessionId=s1 runId=r1"⟩)).1
        (RunDaemon.RLine.json ⟨RunDaemon.Field0.inner (some "agent/embedded"),
          RunDaemon.JField.str "embedded run done: sessionId=s1 runId=r1"⟩)).2 = none := by
  have h := c3_rundone_idempotent ⟨[], []⟩
    (RunDaemon.RLine.json ⟨RunDaemon.Field0.inner (some "agent/embedded"),
      RunDaemon.JField.str
        "embedded run start: sessionId=s1 runId=r1 messageChannel=webchat"⟩)
    (RunDaemon.RLine.json ⟨RunDaemon.Field0.inner (some "agent/embedded"),
      RunDaemon.JField.str "embedded run done: sessionId=s1 runId=r1"⟩)
    ⟨"s1", "r1", "webchat"⟩ ⟨"s1", "r1"⟩
    (by decide) (by decide) (by decide) (by decide) (by decide) (by decide)
  exact ⟨h.1, h.2.1⟩

/-- **C4.** The `webchatRuns` map: from the empty initial state its keys are
always duplicate-free (at most one entry per runId); a processed line only ever
adds a key when it is a RunStart whose channel is the source channel `webchat`
(and the added key is that RunStart's runId); and after a line that is
processed as a RunDone, the RunDone's runId is absent from the map. -/
theorem c4_pendingrun_invariants :
    (∀ ls : List RunDaemon.RLine,
        (RunDaemon.keys (RunDaemon.processLines ⟨[], []⟩ ls).webchatRuns).Nodup)
    ∧ (∀ (st : RunDaemon.RState) (ℓ : RunDaemon.RLine) (k : String),
        k ∈ RunDaemon.keys (RunDaemon.processLine st ℓ).1.webchatRuns →
          k ∈ RunDaemon.keys st.webchatRuns
          ∨ ∃ si, RunDaemon.parseRunStart ℓ = some si
              ∧ si.messageChannel = "webchat" ∧ k = si.runId)
    ∧ (∀ (st : RunDaemon.RState) (ℓ : RunDaemon.RLine) (di : RunDaemon.RunDoneInfo),
        RunDaemon.parseRunStart ℓ = none →
        RunDaemon.parseWebchatRunDone ℓ = some di →
          di.runId ∉ RunDaemon.keys (RunDaemon.processLine st ℓ).1.webchatRuns) := by
  refine ⟨?_, ?_, ?_⟩
  · intro ls
    exact RunDaemon.keys_nodup_processLines ls ⟨[], []⟩ (by simp [RunDaemon.keys])
  · intro st ℓ k hk
    cases hs : RunDaemon.parseRunStart ℓ with
    | some si =>
      by_cases hc : (si.messageChannel == "webchat") = true
      · rw [show (RunDaemon.processLine st ℓ).1.webchatRuns
            = RunDaemon.mapSet st.webchatRuns si.runId si.sessionId by
              simp [RunDaemon.processLine, hs, hc]] at hk
        rw [RunDaemon.keys_mapSet] at hk
        by_cases hmem : si.runId ∈ RunDaemon.keys st.webchatRuns
        · rw [if_pos hmem] at hk
          exact Or.inl hk
        · rw [if_neg hmem] at hk
          rcases List.mem_append.mp hk with h | h
          · exact Or.inl h
          · exact Or.inr ⟨si, rfl, beq_iff_eq.mp hc, List.mem_singleton.mp h⟩
      · rw [show (RunDaemon.processLine st ℓ).1 = st by
          simp [RunDaemon.processLine, hs, hc]] at hk
        exact Or.inl hk
    | none =>
      cases hd : RunDaemon.parseWebchatRunDone ℓ with
      | none =>
        rw [show (RunDaemon.processLine st ℓ).1 = st by
          simp [RunDaemon.processLine, hs, hd]] at hk
        exact Or.inl hk
      | some di =>
        cases hg : RunDaemon.mapGet st.webchatRuns di.runId with
        | none =>
          rw [show (RunDaemon.processLine st ℓ).1 = st by
            simp [RunDaemon.processLine, hs, hd, hg]] at hk
          exact Or.inl hk
        | some sid =>
          by_cases hp : di.runId ∈ st.processedRuns
          · rw [show (RunDaemon.processLine st ℓ).1.webchatRuns
                = RunDaemon.mapDelete st.webchatRuns di.runId by
                  simp [RunDaemon.processLine, hs, hd, hg, hp]] at hk
            exact Or.inl (RunDaemon.mem_keys_mapDelete _ _ _ hk)
          · rw [show (RunDaemon.processLine st ℓ).1.webchatRuns
                = RunDaemon.mapDelete st.webchatRuns di.runId by
                  simp [RunDaemon.processLine, hs, hd, hg, hp]] at hk
            exact Or.inl (RunDaemon.mem_keys_mapDelete _ _ _ hk)
  · intro st ℓ di hs hd
    cases hg : RunDaemon.mapGet st.webchatRuns di.runId with
    | none =>
      rw [show (RunDaemon.processLine st ℓ).1 = st by
        simp [RunDaemon.processLine, hs, hd, hg]]
      exact (RunDaemon.mapGet_eq_none_iff _ _).mp hg
    | some sid =>
      by_cases hp : di.runId ∈ st.processedRuns
      · rw [show (RunDaemon.processLine st ℓ).1.webchatRuns
            = RunDaemon.mapDelete st.webchatRuns di.runId by
              simp [RunDaemon.processLine, hs, hd, hg, hp]]
        exact RunDaemon.keys_mapDelete_not_mem _ _
      · rw [show (RunDaemon.processLine st ℓ).1.webchatRuns
            = RunDaemon.mapDelete st.webchatRuns di.runId by
              simp [RunDaemon.processLine, hs, hd, hg, hp]]
        exact RunDaemon.keys_mapDelete_not_mem _ _

/-- Witness for C4 on a concrete state and run-done line: processing the
matching RunDone removes `r1` from the map. -/
theorem c4_witness :
    "r1" ∉ RunDaemon.keys
      (RunDaemon.processLine ⟨[("r1", "s1")], []⟩
        (RunDaemon.RLine.json ⟨RunDaemon.Field0.inner (some "agent/embedded"),
          RunDaemon.JField.str "embedded run done: sessionId=s1 runId=r1"⟩)).1.webchatRuns :=
  c4_pendingrun_invariants.2.2 ⟨[("r1", "s1")], []⟩
    (RunDaemon.RLine.json ⟨RunDaemon.Field0.inner (some "agent/embedded"),
      RunDaemon.JField.str "embedded run done: sessionId=s1 runId=r1"⟩)
    ⟨"s1", "r1"⟩ (by decide) (by decide)

/-- **C5.** Malformed lines are no-ops: in the turn-flag daemon, blank lines,
JSON-parse failures and entries without a `message` field leave the state
(webchat flag and cache) unchanged and emit nothing; in the run-correlation
daemon, blank lines and parse failures classify as `none` in both parsers and
leave the state unchanged, any line that neither parser recognises is a no-op,
and an `agent/embedded` entry whose message lacks an extractable `sessionId=`
field is classified as `none` by both parsers; `MirrorLogLogic.shouldMirror`
returns `null` on parse failures.  (All classifiers are total functions — the
embedding has no failure path, matching "never throws".) -/
theorem c5_malformed_noop :
    (∀ (ok : Bool) (st : MirrorDaemon.DState),
        MirrorDaemon.processLine ok st MirrorDaemon.DLine.blank = (st, none)
        ∧ MirrorDaemon.processLine ok st MirrorDaemon.DLine.badJson = (st, none))
    ∧ (∀ (ok : Bool) (st : MirrorDaemon.DState) (e : MirrorDaemon.DEntry),
        e.message = none →
          MirrorDaemon.processLine ok st (MirrorDaemon.DLine.json e) = (st, none))
    ∧ (∀ st : RunDaemon.RState,
        RunDaemon.processLine st RunDaemon.RLine.blank = (st, none)
        ∧ RunDaemon.processLine st RunDaemon.RLine.badJson = (st, none))
    ∧ (RunDaemon.parseRunStart RunDaemon.RLine.blank = none
        ∧ RunDaemon.parseRunStart RunDaemon.RLine.badJson = none
        ∧ RunDaemon.parseWebchatRunDone RunDaemon.RLine.blank = none
        ∧ RunDaemon.parseWebchatRunDone RunDaemon.RLine.badJson = none)
    ∧ (∀ (st : RunDaemon.RState) (ℓ : RunDaemon.RLine),
        RunDaemon.parseRunStart ℓ = none → RunDaemon.parseWebchatRunDone ℓ = none →
          RunDaemon.processLine st ℓ = (st, none))
    ∧ (∀ (e : RunDaemon.REntry) (m : String), e.field1 = RunDaemon.JField.str m →
        MirrorStr.scanKeyCapture "sessionId=".data RunDaemon.runClass m.data = none →
          RunDaemon.parseRunStart (RunDaemon.RLine.json e) = none
          ∧ RunDaemon.parseWebchatRunDone (RunDaemon.RLine.json e) = none)
    ∧ (∀ (ignoreTag : String) (cache : List String),
        MirrorLogic.shouldMirror ignoreTag cache MirrorLogic.MLLine.badJson = none) := by
  refine ⟨?_, ?_, ?_, ?_, ?_, ?_, ?_⟩
  · intro ok st; exact ⟨rfl, rfl⟩
  · intro ok st e he
    simp [MirrorDaemon.processLine, he]
  · intro st; exact ⟨rfl, rfl⟩
  · exact ⟨rfl, rfl, rfl, rfl⟩
  · intro st ℓ h1 h2
    simp [RunDaemon.processLine, h1, h2]
  · intro e m hf hscan
    constructor
    · simp only [RunDaemon.parseRunStart, hf]
      cases RunDaemon.parseSubsystem e.field0 with
      | none => rfl
      | some sub => simp [hscan]
    · simp only [RunDaemon.parseWebchatRunDone, hf]
      cases RunDaemon.parseSubsystem e.field0 with
      | none => rfl
      | some sub => simp [hscan]
  · intro ignoreTag cache; rfl

/-- Witness for C5: a concrete entry with the right subsystem and the run-start
marker but no `sessionId=` token is classified as `none` by both parsers, and a
concrete no-op line leaves a concrete run-correlation state unchanged. -/
theorem c5_witness :
    (RunDaemon.parseRunStart (RunDaemon.RLine.json
        ⟨RunDaemon.Field0.inner (some "agent/embedded"),
         RunDaemon.JField.str "embedded run start: no fields here"⟩) = none)
    ∧ (RunDaemon.processLine ⟨[("r1", "s1")], ["r0"]⟩ RunDaemon.RLine.badJson
        = (⟨[("r1", "s1")], ["r0"]⟩, none))
    ∧ (MirrorDaemon.processLine false ⟨true, ["x"]⟩ (MirrorDaemon.DLine.json ⟨none⟩)
        = (⟨true, ["x"]⟩, none)) := by
  refine ⟨?_, ?_, ?_⟩
  · exact (c5_malformed_noop.2.2.2.2.2.1
      ⟨RunDaemon.Field0.inner (some "agent/embedded"),
       RunDaemon.JField.str "embedded run start: no fields here"⟩
      "embedded run start: no fields here" rfl (by decide)).1
  · exact c5_malformed_noop.2.2.2.2.1 ⟨[("r1", "s1")], ["r0"]⟩ RunDaemon.RLine.badJson
      rfl rfl
  · exact c5_malformed_noop.2.1 false ⟨true, ["x"]⟩ ⟨none⟩ rfl

/-! ## Lemmas for the turn-flag pipeline -/

namespace MirrorStr

theorem joinSep_ne_empty (sep : String) :
    ∀ l : List String, l ≠ [] → (∀ x ∈ l, x ≠ "") → joinSep sep l ≠ "" := by
  intro l
  induction l with
  | nil => intro h _; exact absurd rfl h
  | cons x t ih =>
    intro _ hall
    cases t with
    | nil => simpa [joinSep] using hall x (by simp)
    | cons y ys =>
      intro hcon
      have hx : x ≠ "" := hall x (by simp)
      have hxz : x.length ≠ 0 := by
        intro h0
        refine hx (String.ext ?_)
        exact List.length_eq_zero.mp h0
      simp only [joinSep] at hcon
      have hlen := congrArg String.length hcon
      rw [String.length_append, String.length_append] at hlen
      have hz : ("" : String).length = 0 := rfl
      rw [hz] at hlen
      omega

end MirrorStr

namespace MirrorDaemon

theorem partText_toolcall {p : DPart} (hp : isToolCallPart p = true) :
    partText p = none := by
  cases p with
  | obj ty tx =>
    have hty : ty = some "toolCall" := by simpa [isToolCallPart] using hp
    subst hty
    cases tx with
    | none => rfl
    | some s => simp [partText]
  | nonObjTruthy s => simp [isToolCallPart] at hp
  | falsyPart => simp [isToolCallPart] at hp

theorem extractAssistantText_toolcalls {parts : List DPart}
    (h : parts.all isToolCallPart = true) :
    extractAssistantText (.arr parts) = none := by
  have hnil : parts.filterMap partText = [] := by
    rw [List.filterMap_eq_nil_iff]
    intro p hp
    exact partText_toolcall (List.all_eq_true.mp h p hp)
  simp [extractAssistantText, hnil]

theorem mem_filterMap_partText_ne_empty {parts : List DPart} {x : String}
    (hx : x ∈ parts.filterMap partText) : x ≠ "" := by
  obtain ⟨p, _, hpx⟩ := List.mem_filterMap.mp hx
  cases p with
  | obj ty tx =>
    cases ty with
    | none => simp [partText] at hpx
    | some ty' =>
      cases tx with
      | none => simp [partText] at hpx
      | some s =>
        simp only [partText] at hpx
        split at hpx
        next hcond =>
          simp only [Bool.and_eq_true] at hcond
          obtain ⟨-, h3⟩ := hcond
          have : MirrorStr.trimS s ≠ "" := bne_iff_ne.mp h3
          cases hpx
          exact this
        next => exact absurd hpx (by simp)
  | nonObjTruthy s => simp [partText] at hpx
  | falsyPart => simp [partText] at hpx

theorem extractAssistantText_ne_empty {c : DContent} {t : String}
    (h : extractAssistantText c = some t) : t ≠ "" := by
  cases c with
  | str s => exact absurd h (by simp [extractAssistantText])
  | other => exact absurd h (by simp [extractAssistantText])
  | arr parts =>
    simp only [extractAssistantText] at h
    split at h
    · exact absurd h (by simp)
    next hne =>
      have ht : MirrorStr.joinSep "\n\n" (parts.filterMap partText) = t :=
        Option.some.inj h
      have hlne : parts.filterMap partText ≠ [] := by
        intro h0; rw [h0] at hne; simp at hne
      rw [← ht]
      exact MirrorStr.joinSep_ne_empty "\n\n" _ hlne
        (fun x hx => mem_filterMap_partText_ne_empty hx)

end MirrorDaemon

/-- **C2.** Turn-flag correctness: from a fresh cache, a source-channel
(webchat-classified) user turn sets the flag; an assistant turn consisting only
of tool calls emits nothing and leaves flag and cache unchanged; the following
assistant turn with text `t` emits exactly one command — the one carrying `t`;
a user turn that does not classify as webchat clears the flag and the following
assistant turn emits nothing; and any entry whose role is not `user` (assistant,
tool-result, or anything else) leaves the flag unchanged. -/
theorem c2_turn_flag_pipeline
    (ok₁ ok₂ ok₃ : Bool) (b : Bool)
    (uContent aContent : MirrorDaemon.DContent)
    (tparts : List MirrorDaemon.DPart) (t : String)
    (hu : MirrorDaemon.isWebchatUserMessage (MirrorDaemon.userText uContent) = true)
    (htool : tparts.all MirrorDaemon.isToolCallPart = true)
    (ha : MirrorDaemon.extractAssistantText aContent = some t) :
    (MirrorDaemon.processLine ok₁ ⟨b, []⟩
        (MirrorDaemon.DLine.json ⟨some ⟨"user", uContent⟩⟩) = (⟨true, []⟩, none))
    ∧ (MirrorDaemon.processLine ok₂ ⟨true, []⟩
        (MirrorDaemon.DLine.json ⟨some ⟨"assistant", MirrorDaemon.DContent.arr tparts⟩⟩)
        = (⟨true, []⟩, none))
    ∧ (MirrorDaemon.processLine ok₃ ⟨true, []⟩
        (MirrorDaemon.DLine.json ⟨some ⟨"assistant", aContent⟩⟩)
        = (⟨true, MirrorStr.cacheInsert MirrorDaemon.CACHE_SIZE [] t⟩,
           some (MirrorDaemon.daemonCommand t)))
    ∧ (∀ (ok ok' b' : Bool) (uC aC : MirrorDaemon.DContent),
        MirrorDaemon.isWebchatUserMessage (MirrorDaemon.userText uC) = false →
          (MirrorDaemon.processLine ok ⟨b', []⟩
              (MirrorDaemon.DLine.json ⟨some ⟨"user", uC⟩⟩) = (⟨false, []⟩, none))
          ∧ (MirrorDaemon.processLine ok' ⟨false, []⟩
              (MirrorDaemon.DLine.json ⟨some ⟨"assistant", aC⟩⟩) = (⟨false, []⟩, none)))
    ∧ (∀ (ok : Bool) (st : MirrorDaemon.DState) (e : MirrorDaemon.DEntry)
        (m : MirrorDaemon.DMsg), e.message = some m → m.role ≠ "user" →
          ((MirrorDaemon.processLine ok st (MirrorDaemon.DLine.json e)).1).prevUserIsWebchat
            = st.prevUserIsWebchat) := by
  refine ⟨?_, ?_, ?_, ?_, ?_⟩
  · simp [MirrorDaemon.processLine, hu]
  · simp [MirrorDaemon.processLine, MirrorDaemon.extractAssistantText_toolcalls htool]
  · have hne : t ≠ "" := MirrorDaemon.extractAssistantText_ne_empty ha
    have hbe : (t == "") = false := beq_eq_false_iff_ne.mpr hne
    cases ok₃ <;>
      simp [MirrorDaemon.processLine, ha, MirrorDaemon.sendToTelegram, hbe]
  · intro ok ok' b' uC aC hf
    constructor
    · simp [MirrorDaemon.processLine, hf]
    · simp [MirrorDaemon.processLine]
  · intro ok st e m hm hrole
    have hru : (m.role == "user") = false := beq_eq_false_iff_ne.mpr hrole
    simp only [MirrorDaemon.processLine, hm, hru, Bool.false_eq_true, if_false]
    by_cases hr : (m.role == "assistant" && st.prevUserIsWebchat) = true
    · simp only [hr, if_true]
      cases hx : MirrorDaemon.extractAssistantText m.content with
      | none => rfl
      | some tt =>
        cases hsend : MirrorDaemon.sendToTelegram ok st.mirroredCache tt with
        | mk c cmd => simp [hsend]
    · rw [if_neg hr]

/-- Witness for C2 on the repo's own test scenario: webchat user message, then
a tool-call-only assistant turn, then the assistant text `"Done."` — exactly
the final text is forwarded. -/
theorem c2_witness :
    (MirrorDaemon.processLine true ⟨false, []⟩
        (MirrorDaemon.DLine.json ⟨some ⟨"user", MirrorDaemon.DContent.arr
          [MirrorDaemon.DPart.obj (some "text")
            (some "hello\n[message_id: a8733e42-3dce-4de0-8dfc-4d8e1aaf7e4a]")]⟩⟩)
        = (⟨true, []⟩, none))
    ∧ (MirrorDaemon.processLine true ⟨true, []⟩
        (MirrorDaemon.DLine.json ⟨some ⟨"assistant", MirrorDaemon.DContent.arr
          [MirrorDaemon.DPart.obj (some "toolCall") none]⟩⟩)
        = (⟨true, []⟩, none))
    ∧ (MirrorDaemon.processLine true ⟨true, []⟩
        (MirrorDaemon.DLine.json ⟨some ⟨"assistant", MirrorDaemon.DContent.arr
          [MirrorDaemon.DPart.obj (some "text") (some "Done.")]⟩⟩)
        = (⟨true, ["Done."]⟩, some (MirrorDaemon.daemonCommand "Done."))) := by
  have h := c2_turn_flag_pipeline true true true false
    (MirrorDaemon.DContent.arr
      [MirrorDaemon.DPart.obj (some "text")
        (some "hello\n[message_id: a8733e42-3dce-4de0-8dfc-4d8e1aaf7e4a]")])
    (MirrorDaemon.DContent.arr
      [MirrorDaemon.DPart.obj (some "text") (some "Done.")])
    [MirrorDaemon.DPart.obj (some "toolCall") none] "Done."
    (by decide) (by decide) (by decide)
  exact ⟨h.1, h.2.1, h.2.2.1⟩

/-! ## Escaping lemmas -/

namespace MirrorStr

theorem replaceChar_append (c : Char) (rep : List Char) :
    ∀ a b : List Char, replaceChar c rep (a ++ b) = replaceChar c rep a ++ replaceChar c rep b := by
  intro a b
  induction a with
  | nil => rfl
  | cons x t ih => simp [replaceChar, ih]

theorem escQDB_chain : ∀ l : List Char,
    replaceChar btk ['\\', btk] (replaceChar '$' ['\\', '$']
      (replaceChar '"' ['\\', '"'] l)) = escQDBlist l := by
  intro l
  induction l with
  | nil => rfl
  | cons c t ih =>
    simp only [replaceChar, escQDBlist]
    rw [replaceChar_append, replaceChar_append, ih]
    congr 1
    by_cases h1 : c = '"'
    · subst h1; rfl
    · by_cases h2 : c = '$'
      · subst h2; rfl
      · by_cases h3 : c = btk
        · subst h3; rfl
        · have b1 : (c == '"') = false := beq_eq_false_iff_ne.mpr h1
          have b2 : (c == '$') = false := beq_eq_false_iff_ne.mpr h2
          have b3 : (c == btk) = false := beq_eq_false_iff_ne.mpr h3
          simp [escQDBchar, replaceChar, b1, b2, b3]

theorem escQ_single : ∀ l : List Char,
    replaceChar '"' ['\\', '"'] l = escQlist l := by
  intro l
  induction l with
  | nil => rfl
  | cons c t ih => simp only [replaceChar, escQlist, escQchar, ih]

end MirrorStr

/-- **C10.** (Implicit behaviour of `MirrorLogLogic.shouldMirror`.)  Whenever
the extracted content string begins with `'['` or contains `http://127.0.0.1`,
`shouldMirror` returns `null` — regardless of the webchat test, the ignore tag,
or the dedup cache, so in particular also for a genuine, not-yet-mirrored
webchat user message whose text merely starts with a bracket. -/
theorem c10_bracket_localhost_suppressed
    (tag : String) (cache : List String) (e : MirrorLogic.MLEntry) (s : String)
    (hc : MirrorLogic.mlContent e = MirrorLogic.JSVal.str s)
    (hor : MirrorStr.startsWithS "[" s = true
        ∨ MirrorStr.hasSubS "http://127.0.0.1" s = true) :
    MirrorLogic.shouldMirror tag cache (MirrorLogic.MLLine.json e) = none := by
  simp only [MirrorLogic.shouldMirror, hc]
  by_cases h1 : (!MirrorLogic.isWebchat e || s == "") = true
  · rw [if_pos h1]
  · rw [if_neg h1]
    by_cases h2 : MirrorStr.hasSubS tag s = true
    · rw [if_pos h2]
    · rw [if_neg h2]
      have h3 : (MirrorStr.startsWithS "[" s || MirrorStr.hasSubS "http://127.0.0.1" s)
          = true := by
        rcases hor with h | h <;> simp [h]
      rw [if_pos h3]

/-- Witness for C10: the repo's own test line — a genuine webchat gateway entry
whose content starts with `[INFO]` and names the local URL — is suppressed. -/
theorem c10_witness :
    MirrorLogic.shouldMirror "[mirrored]" []
      (MirrorLogic.MLLine.json
        ⟨some "gateway/channels/webchat", false,
         MirrorLogic.JSVal.str "[INFO] Gateway started at http://127.0.0.1",
         MirrorLogic.JSVal.falsy⟩) = none :=
  c10_bracket_localhost_suppressed "[mirrored]" []
    ⟨some "gateway/channels/webchat", false,
     MirrorLogic.JSVal.str "[INFO] Gateway started at http://127.0.0.1",
     MirrorLogic.JSVal.falsy⟩
    "[INFO] Gateway started at http://127.0.0.1" rfl (Or.inl (by decide))

/-- Counterexample to **C1** as stated: the turn-flag pipeline of
`mirror_daemon.js` performs no mirror-marker check, so a candidate assistant
text that contains `[mirrored]` IS handed to the send capability (a command is
emitted for it) after a webchat user turn — the forwarding decision is not
false on that path. -/
theorem c1_counterexample :
    (MirrorDaemon.processLine true
      (MirrorDaemon.processLine true ⟨false, []⟩
        (MirrorDaemon.DLine.json ⟨some ⟨"user", MirrorDaemon.DContent.arr
          [MirrorDaemon.DPart.obj (some "text")
            (some "hi\n[message_id: a8733e42-3dce-4de0-8dfc-4d8e1aaf7e4a]")]⟩⟩)).1
      (MirrorDaemon.DLine.json ⟨some ⟨"assistant", MirrorDaemon.DContent.arr
        [MirrorDaemon.DPart.obj (some "text") (some "[mirrored] echoed text")]⟩⟩)).2
      = some (MirrorDaemon.daemonCommand "[mirrored] echoed text")
    ∧ MirrorStr.hasSubS MirrorDaemon.MIRROR_TAG "[mirrored] echoed text" = true := by
  exact ⟨by decide, by decide⟩

/-- **C1 (amended).**  The marker-rejection invariant holds on the
run-correlation pipeline and in `MirrorLogLogic`: every text containing the
ignore tag is rejected by `shouldIgnore`, the run-done delivery step never
hands such a text to the send capability, and `shouldMirror` returns `null`
for every content containing the tag.  (The turn-flag pipeline of
`mirror_daemon.js` performs no such check — see the counterexample — and
relies instead on channel-prefix fingerprinting of user turns to break echo
loops.) -/
theorem c1_echo_filter_amended :
    (∀ t : String, MirrorStr.hasSubS RunDaemon.IGNORE_TAG t = true →
        RunDaemon.shouldIgnore t = true)
    ∧ (∀ (ok : Bool) (cache : List String) (t : String),
        MirrorStr.hasSubS RunDaemon.IGNORE_TAG t = true →
          RunDaemon.deliverRunText ok cache (some t) = (cache, none))
    ∧ (∀ (tag : String) (cache : List String) (e : MirrorLogic.MLEntry) (s : String),
        MirrorLogic.mlContent e = MirrorLogic.JSVal.str s →
        MirrorStr.hasSubS tag s = true →
          MirrorLogic.shouldMirror tag cache (MirrorLogic.MLLine.json e) = none) := by
  have hig : ∀ t : String, MirrorStr.hasSubS RunDaemon.IGNORE_TAG t = true →
      RunDaemon.shouldIgnore t = true := by
    intro t h
    unfold RunDaemon.shouldIgnore
    by_cases h0 : (t == "") = true
    · rw [if_pos h0]
    · rw [if_neg h0, if_pos h]
  refine ⟨hig, ?_, ?_⟩
  · intro ok cache t h
    have hred : RunDaemon.deliverRunText ok cache (some t)
        = if (t != "" && !RunDaemon.shouldIgnore t) = true
          then RunDaemon.sendToTelegram ok cache t else (cache, none) := rfl
    rw [hred, hig t h]
    simp
  · intro tag cache e s hc htag
    simp only [MirrorLogic.shouldMirror, hc]
    by_cases h1 : (!MirrorLogic.isWebchat e || s == "") = true
    · rw [if_pos h1]
    · rw [if_neg h1, if_pos htag]

/-- Witness for the amended C1 at a concrete marker-containing text. -/
theorem c1_witness :
    RunDaemon.shouldIgnore "[mirrored] hello" = true
    ∧ RunDaemon.deliverRunText false ["x"] (some "[mirrored] hello") = (["x"], none)
    ∧ MirrorLogic.shouldMirror "[mirrored]" []
        (MirrorLogic.MLLine.json
          ⟨some "gateway/channels/webchat", false,
           MirrorLogic.JSVal.str "[mirrored] hello", MirrorLogic.JSVal.falsy⟩) = none :=
  ⟨c1_echo_filter_amended.1 "[mirrored] hello" (by decide),
   c1_echo_filter_amended.2.1 false ["x"] "[mirrored] hello" (by decide),
   c1_echo_filter_amended.2.2 "[mirrored]" []
     ⟨some "gateway/channels/webchat", false,
      MirrorLogic.JSVal.str "[mirrored] hello", MirrorLogic.JSVal.falsy⟩
     "[mirrored] hello" rfl (by decide)⟩

/-- Counterexample to **C9** as stated: the escape chain of both daemons leaves
the backslash unchanged (it is not escaped before embedding), and
`MirrorLogLogic.sendToTarget` escapes only the double quote — a dollar sign
passes through unchanged there. -/
theorem c9_counterexample :
    MirrorStr.escapeQDB "\\" = "\\"
    ∧ ("\\" : String) ≠ "\\\\"
    ∧ MirrorLogic.escapeQuoteOnly "$" = "$" :=
  ⟨rfl, by decide, rfl⟩

/-- **C9 (amended).** The forwarder escaping, characterised: the daemons'
escape chain is the one-pass character map that escapes double quote, dollar
sign and backtick (each prefixed with a backslash) and leaves every other
character — the backslash included — unchanged; `MirrorLogLogic` escapes only
the double quote; and the outgoing command embeds the mirror marker tag
followed by a space immediately before the escaped (truncated) text. -/
theorem c9_escaping_amended :
    (∀ s : String, MirrorStr.escapeQDB s = ⟨MirrorStr.escQDBlist s.data⟩)
    ∧ (MirrorStr.escQDBchar '"' = ['\\', '"']
        ∧ MirrorStr.escQDBchar '$' = ['\\', '$']
        ∧ MirrorStr.escQDBchar MirrorStr.btk = ['\\', MirrorStr.btk])
    ∧ (∀ c : Char, c ≠ '"' → c ≠ '$' → c ≠ MirrorStr.btk →
        MirrorStr.escQDBchar c = [c])
    ∧ (∀ s : String, MirrorLogic.escapeQuoteOnly s = ⟨MirrorStr.escQlist s.data⟩)
    ∧ (∀ t : String, MirrorDaemon.daemonCommand t
        = "openclaw message send --target \"" ++ MirrorDaemon.TELEGRAM_TARGET
          ++ "\" --message \"" ++ MirrorDaemon.MIRROR_TAG ++ " "
          ++ MirrorStr.escapeQDB (MirrorStr.truncate3900 t) ++ "\"")
    ∧ (∀ t : String, RunDaemon.runCommand t
        = "openclaw message send --target \"" ++ RunDaemon.TELEGRAM_TARGET
          ++ "\" --message \"" ++ RunDaemon.IGNORE_TAG ++ " "
          ++ MirrorStr.escapeQDB (MirrorStr.truncate3900 t) ++ "\"") := by
  refine ⟨?_, ⟨rfl, rfl, rfl⟩, ?_, ?_, fun t => rfl, fun t => rfl⟩
  · intro s
    unfold MirrorStr.escapeQDB
    exact congrArg _ (MirrorStr.escQDB_chain s.data)
  · intro c h1 h2 h3
    simp [MirrorStr.escQDBchar, beq_eq_false_iff_ne.mpr h1,
      beq_eq_false_iff_ne.mpr h2, beq_eq_false_iff_ne.mpr h3]
  · intro s
    unfold MirrorLogic.escapeQuoteOnly
    exact congrArg _ (MirrorStr.escQ_single s.data)

/-- Witness for the amended C9: the backslash maps to itself. -/
theorem c9_witness : MirrorStr.escQDBchar '\\' = ['\\'] :=
  c9_escaping_amended.2.2.1 '\\' (by decide) (by decide) (by decide)

/-! ## Lemmas for channel fingerprinting (C6) -/

namespace MirrorStr

theorem dropPref_self_append : ∀ p l : List Char, dropPref p (p ++ l) = some l := by
  intro p
  induction p with
  | nil => intro l; rfl
  | cons c cs ih => intro l; simp [dropPref, ih]

theorem msgIdKey_cons : msgIdKey = '[' :: "message_id:".data := rfl

theorem dropPref_msgIdKey_ne {c : Char} (hc : (('[' : Char) == c) = false)
    (t : List Char) : dropPref msgIdKey (c :: t) = none := by
  rw [msgIdKey_cons]
  simp [dropPref, hc]

theorem upToClose_append : ∀ (xs post : List Char), (']' ∈ xs → False) →
    upToClose (xs ++ ']' :: post) = some xs := by
  intro xs
  induction xs with
  | nil => intro post _; simp [upToClose]
  | cons c t ih =>
    intro post hnb
    have hc : (c == ']') = false := beq_eq_false_iff_ne.mpr (fun h => hnb (by simp [h]))
    simp [upToClose, hc, ih post (fun h => hnb (by simp [h]))]

theorem msgIdCapture_cons_eq (c : Char) (t : List Char) :
    msgIdCapture (c :: t)
      = match dropPref msgIdKey (c :: t) with
        | some rest =>
          match upToClose rest with
          | some content => if content.isEmpty then msgIdCapture t else some content
          | none => msgIdCapture t
        | none => msgIdCapture t := rfl

theorem msgIdCapture_skip {c : Char} (hc : (('[' : Char) == c) = false)
    (t : List Char) : msgIdCapture (c :: t) = msgIdCapture t := by
  rw [msgIdCapture_cons_eq, dropPref_msgIdKey_ne hc]

theorem msgIdCapture_found (content post : List Char) (hne : content ≠ [])
    (hnb : ']' ∈ content → False) :
    msgIdCapture (msgIdKey ++ (content ++ ']' :: post)) = some content := by
  have hkey : msgIdKey ++ (content ++ ']' :: post)
      = '[' :: ("message_id:".data ++ (content ++ ']' :: post)) := by
    rw [msgIdKey_cons, List.cons_append]
  have hie : content.isEmpty = false := by
    cases content with
    | nil => exact absurd rfl hne
    | cons _ _ => rfl
  rw [hkey, msgIdCapture_cons_eq, ← List.cons_append, ← msgIdKey_cons,
    dropPref_self_append]
  simp only [upToClose_append content post hnb, hie, Bool.false_eq_true, if_false]

theorem msgIdCapture_at :
    ∀ pre : List Char, '[' ∉ pre →
      ∀ content post : List Char, content ≠ [] → (']' ∈ content → False) →
        msgIdCapture (pre ++ (msgIdKey ++ (content ++ ']' :: post))) = some content := by
  intro pre
  induction pre with
  | nil =>
    intro _ content post hne hnb
    rw [List.nil_append]
    exact msgIdCapture_found content post hne hnb
  | cons c pre' ih =>
    intro hpre content post hne hnb
    have hc : (('[' : Char) == c) = false :=
      beq_eq_false_iff_ne.mpr (fun h => hpre (by simp [← h]))
    rw [List.cons_append, msgIdCapture_skip hc]
    exact ih (fun hm => hpre (List.mem_cons_of_mem c hm)) content post hne hnb

theorem dropWhile_isWs_of_all {l : List Char}
    (h : l.all (fun c => !isWs c) = true) : l.dropWhile isWs = l := by
  cases l with
  | nil => rfl
  | cons c t =>
    have hc : isWs c = false := by
      simpa using List.all_eq_true.mp h c (by simp)
    simp [List.dropWhile_cons, hc]

theorem trimL_space_cons {id : List Char}
    (h : id.all (fun c => !isWs c) = true) : trimL (' ' :: id) = id := by
  unfold trimL
  rw [List.dropWhile_cons, if_pos (show isWs ' ' = true from rfl),
    dropWhile_isWs_of_all h]
  have hrev : id.reverse.all (fun c => !isWs c) = true := by
    rw [List.all_eq_true] at h ⊢
    intro c hc
    exact h c (List.mem_reverse.mp hc)
  rw [dropWhile_isWs_of_all hrev, List.reverse_reverse]

theorem hasRunN_of_all (good : Char → Bool) (n : Nat) :
    ∀ l : List Char, n ≤ l.length → l.all good = true → hasRunN good n l = true := by
  intro l hlen hall
  cases l with
  | nil =>
    have hz : n = 0 := Nat.le_zero.mp hlen
    subst hz
    rfl
  | cons c t =>
    have h1 : (((c :: t).take n).length == n) = true := by
      rw [List.length_take, Nat.min_eq_left hlen]
      exact beq_self_eq_true n
    have h2 : ((c :: t).take n).all good = true := by
      rw [List.all_eq_true] at hall ⊢
      intro x hx
      exact hall x ((List.take_sublist n (c :: t)).subset hx)
    show ((((c :: t).take n).length == n && ((c :: t).take n).all good)
        || hasRunN good n t) = true
    rw [h1, h2]
    rfl

theorem hasRunN_short (good : Char → Bool) (n : Nat) :
    ∀ l : List Char, l.length < n → hasRunN good n l = false := by
  intro l
  induction l with
  | nil =>
    intro h
    simp only [List.length_nil] at h
    show decide (n = 0) = false
    rw [decide_eq_false_iff_not]
    omega
  | cons c t ih =>
    intro h
    have h1 : (((c :: t).take n).length == n) = false := by
      rw [List.length_take, Nat.min_eq_right (Nat.le_of_lt h)]
      exact beq_eq_false_iff_ne.mpr (Nat.ne_of_lt h)
    have ht : t.length < n := by
      simp only [List.length_cons] at h
      omega
    show ((((c :: t).take n).length == n && ((c :: t).take n).all good)
        || hasRunN good n t) = false
    rw [h1, ih ht]
    rfl

end MirrorStr

namespace MirrorDaemon

theorem wsChar_cases {c : Char} (h : MirrorStr.isWs c = true) :
    c = ' ' ∨ c = '\n' ∨ c = '\t' ∨ c = '\r' ∨ c = '\x0b' ∨ c = '\x0c' := by
  have h' : ((((c = ' ' ∨ c = '\n') ∨ c = '\t') ∨ c = '\r') ∨ c = '\x0b') ∨ c = '\x0c' := by
    simpa [MirrorStr.isWs, beq_iff_eq] using h
  tauto

theorem uuidTestChar_not_ws {c : Char} (h : uuidTestChar c = true) :
    MirrorStr.isWs c = false := by
  by_contra hws
  rw [Bool.not_eq_false] at hws
  rcases wsChar_cases hws with h' | h' | h' | h' | h' | h' <;>
    (subst h'; exact absurd h (by decide))

theorem uuidTestChar_not_rb {c : Char} (h : uuidTestChar c = true) :
    (c == ']') = false := by
  by_contra hrb
  rw [Bool.not_eq_false, beq_iff_eq] at hrb
  subst hrb
  exact absurd h (by decide)

theorem digit_uuidTestChar {c : Char} (h : c.isDigit = true) :
    uuidTestChar c = true := by
  simp [uuidTestChar, h]

theorem hexdash_uuidTestChar {c : Char}
    (h : (SpecShapes.isHexLower c || c == '-') = true) : uuidTestChar c = true := h

theorem startsWith_bracket_ne_m {m2 : Char} {mrest : List Char}
    (hm : (m2 == 'm') = false) (pre rest : List Char) (hpre : '[' ∉ pre) :
    MirrorStr.startsWithL ('[' :: m2 :: mrest) (pre ++ (MirrorStr.msgIdKey ++ rest))
      = false := by
  cases pre with
  | nil =>
    rw [List.nil_append]
    rw [show MirrorStr.msgIdKey ++ rest = '[' :: 'm' :: ("essage_id:".data ++ rest)
        from rfl]
    simp [MirrorStr.startsWithL, hm]
  | cons c pre' =>
    have hc : (('[' : Char) == c) = false :=
      beq_eq_false_iff_ne.mpr (fun h => hpre (by simp [← h]))
    rw [List.cons_append]
    simp [MirrorStr.startsWithL, hc]

theorem hasSub_msgid (pre rest : List Char) :
    MirrorStr.hasSubL "message_id:".data (pre ++ (MirrorStr.msgIdKey ++ rest))
      = true := by
  have hLeq : pre ++ (MirrorStr.msgIdKey ++ rest)
      = (pre ++ ['[']) ++ "message_id:".data ++ rest := by
    rw [MirrorStr.msgIdKey_cons]
    simp
  rw [hLeq]
  exact MirrorStr.hasSubL_of_middle "message_id:".data (pre ++ ['[']) rest

theorem isWebchat_msgid_eval (pre id post : List Char)
    (hpre : '[' ∉ pre)
    (hS : MirrorStr.startsWithL "System:".data
        (pre ++ (MirrorStr.msgIdKey ++ ((' ' :: id) ++ (']' :: post)))) = false)
    (hcl : id.all uuidTestChar = true) :
    isWebchatUserMessage
        ⟨pre ++ (MirrorStr.msgIdKey ++ ((' ' :: id) ++ (']' :: post)))⟩
      = MirrorStr.hasRunN uuidTestChar 36 id := by
  have hnws : id.all (fun c => !MirrorStr.isWs c) = true := by
    rw [List.all_eq_true] at hcl ⊢
    intro c hc
    simpa using uuidTestChar_not_ws (hcl c hc)
  have e1 : MirrorStr.startsWithS "[Telegram"
      ⟨pre ++ (MirrorStr.msgIdKey ++ ((' ' :: id) ++ (']' :: post)))⟩ = false := by
    show MirrorStr.startsWithL "[Telegram".data _ = false
    rw [show "[Telegram".data = '[' :: 'T' :: "elegram".data from rfl]
    exact startsWith_bracket_ne_m (by decide) pre _ hpre
  have e2 : MirrorStr.startsWithS "System:"
      ⟨pre ++ (MirrorStr.msgIdKey ++ ((' ' :: id) ++ (']' :: post)))⟩ = false := hS
  have e3 : MirrorStr.startsWithS "[Queued"
      ⟨pre ++ (MirrorStr.msgIdKey ++ ((' ' :: id) ++ (']' :: post)))⟩ = false := by
    show MirrorStr.startsWithL "[Queued".data _ = false
    rw [show "[Queued".data = '[' :: 'Q' :: "ueued".data from rfl]
    exact startsWith_bracket_ne_m (by decide) pre _ hpre
  have e4 : MirrorStr.startsWithS "[Audio]"
      ⟨pre ++ (MirrorStr.msgIdKey ++ ((' ' :: id) ++ (']' :: post)))⟩ = false := by
    show MirrorStr.startsWithL "[Audio]".data _ = false
    rw [show "[Audio]".data = '[' :: 'A' :: "udio]".data from rfl]
    exact startsWith_bracket_ne_m (by decide) pre _ hpre
  have e5 : MirrorStr.hasSubS "message_id:"
      ⟨pre ++ (MirrorStr.msgIdKey ++ ((' ' :: id) ++ (']' :: post)))⟩ = true :=
    hasSub_msgid pre _
  have e6 : MirrorStr.msgIdCapture
      (pre ++ (MirrorStr.msgIdKey ++ ((' ' :: id) ++ (']' :: post))))
      = some (' ' :: id) := by
    have hnb : ']' ∈ ' ' :: id → False := by
      intro hm
      rcases List.mem_cons.mp hm with h | h
      · exact absurd h (by decide)
      · have hrb := uuidTestChar_not_rb (List.all_eq_true.mp hcl ']' h)
        simp at hrb
    exact MirrorStr.msgIdCapture_at pre hpre (' ' :: id) post (by simp) hnb
  have e7 : MirrorStr.trimL (' ' :: id) = id := MirrorStr.trimL_space_cons hnws
  rw [isWebchatUserMessage, e1, e2, e3, e4, e5]
  simp only [Bool.not_true, Bool.false_eq_true, if_false]
  rw [e6]
  simp only [e7]

end MirrorDaemon

/-- Counterexample to **C6** as stated: a purely numeric 36-digit message id
does NOT classify as the target channel — `isWebchatUserMessage` returns `true`
for it, because the code's test `/[a-f0-9-]\x7b36\x7d/.test(id)` only looks for a
36-character run over `[a-f0-9-]`, which a 36-digit number satisfies. -/
theorem c6_counterexample :
    MirrorDaemon.isWebchatUserMessage
        "hi\n[message_id: 111111111111111111111111111111111111]" = true
    ∧ MirrorDaemon.extractMessageId
        "hi\n[message_id: 111111111111111111111111111111111111]"
        = some "111111111111111111111111111111111111"
    ∧ SpecShapes.numericShape "111111111111111111111111111111111111" = true
    ∧ SpecShapes.uuidShape "111111111111111111111111111111111111" = false :=
  ⟨by decide, by decide, by decide, by decide⟩

/-- **C6 (amended).** Channel fingerprinting of a user turn's text: a text
starting with any of the channel/system prefix markers (`[Telegram`, `System:`,
`[Queued`, `[Audio]`) is excluded regardless of its id; a text with no
`message_id:` token is excluded; a text whose `[message_id: …]` token holds a
UUID-shaped id (32 lowercase hex digits with canonical separators) classifies
as the source channel; and a text whose id is purely numeric classifies as the
target channel only when the id is shorter than 36 digits — a purely numeric id
of 36 or more digits classifies as the source channel, because the test only
looks for a 36-character run over `[a-f0-9-]`.  (The structured cases are
stated for texts of the shape `pre ++ "[message_id: " ++ id ++ "]" ++ post`
where `pre` contains no `'['` and does not make the text start with
`System:`.) -/
theorem c6_channel_fingerprinting_amended :
    (∀ s : String, MirrorStr.startsWithS "[Telegram" s = true →
        MirrorDaemon.isWebchatUserMessage s = false)
    ∧ (∀ s : String, MirrorStr.startsWithS "System:" s = true →
        MirrorDaemon.isWebchatUserMessage s = false)
    ∧ (∀ s : String, MirrorStr.startsWithS "[Queued" s = true →
        MirrorDaemon.isWebchatUserMessage s = false)
    ∧ (∀ s : String, MirrorStr.startsWithS "[Audio]" s = true →
        MirrorDaemon.isWebchatUserMessage s = false)
    ∧ (∀ s : String, MirrorStr.hasSubS "message_id:" s = false →
        MirrorDaemon.isWebchatUserMessage s = false)
    ∧ (∀ pre id post : List Char, '[' ∉ pre →
        MirrorStr.startsWithL "System:".data
          (pre ++ (MirrorStr.msgIdKey ++ ((' ' :: id) ++ (']' :: post)))) = false →
        SpecShapes.uuidShape ⟨id⟩ = true →
          MirrorDaemon.isWebchatUserMessage
            ⟨pre ++ (MirrorStr.msgIdKey ++ ((' ' :: id) ++ (']' :: post)))⟩ = true)
    ∧ (∀ pre id post : List Char, '[' ∉ pre →
        MirrorStr.startsWithL "System:".data
          (pre ++ (MirrorStr.msgIdKey ++ ((' ' :: id) ++ (']' :: post)))) = false →
        SpecShapes.numericShape ⟨id⟩ = true → id.length < 36 →
          MirrorDaemon.isWebchatUserMessage
            ⟨pre ++ (MirrorStr.msgIdKey ++ ((' ' :: id) ++ (']' :: post)))⟩ = false)
    ∧ (∀ pre id post : List Char, '[' ∉ pre →
        MirrorStr.startsWithL "System:".data
          (pre ++ (MirrorStr.msgIdKey ++ ((' ' :: id) ++ (']' :: post)))) = false →
        SpecShapes.numericShape ⟨id⟩ = true → 36 ≤ id.length →
          MirrorDaemon.isWebchatUserMessage
            ⟨pre ++ (MirrorStr.msgIdKey ++ ((' ' :: id) ++ (']' :: post)))⟩ = true) := by
  have hdigits : ∀ id : List Char, SpecShapes.numericShape ⟨id⟩ = true →
      id.all MirrorDaemon.uuidTestChar = true := by
    intro id hn
    simp only [SpecShapes.numericShape, Bool.and_eq_true] at hn
    obtain ⟨-, hdig⟩ := hn
    rw [List.all_eq_true] at hdig ⊢
    intro c hc
    exact MirrorDaemon.digit_uuidTestChar (hdig c hc)
  refine ⟨?_, ?_, ?_, ?_, ?_, ?_, ?_, ?_⟩
  · intro s h
    rw [MirrorDaemon.isWebchatUserMessage, if_pos h]
  · intro s h
    rw [MirrorDaemon.isWebchatUserMessage]
    by_cases h1 : MirrorStr.startsWithS "[Telegram" s = true
    · rw [if_pos h1]
    · rw [if_neg h1, if_pos h]
  · intro s h
    rw [MirrorDaemon.isWebchatUserMessage]
    by_cases h1 : MirrorStr.startsWithS "[Telegram" s = true
    · rw [if_pos h1]
    · rw [if_neg h1]
      by_cases h2 : MirrorStr.startsWithS "System:" s = true
      · rw [if_pos h2]
      · rw [if_neg h2, if_pos h]
  · intro s h
    rw [MirrorDaemon.isWebchatUserMessage]
    by_cases h1 : MirrorStr.startsWithS "[Telegram" s = true
    · rw [if_pos h1]
    · rw [if_neg h1]
      by_cases h2 : MirrorStr.startsWithS "System:" s = true
      · rw [if_pos h2]
      · rw [if_neg h2]
        by_cases h3 : MirrorStr.startsWithS "[Queued" s = true
        · rw [if_pos h3]
        · rw [if_neg h3, if_pos h]
  · intro s h
    rw [MirrorDaemon.isWebchatUserMessage]
    by_cases h1 : MirrorStr.startsWithS "[Telegram" s = true
    · rw [if_pos h1]
    · rw [if_neg h1]
      by_cases h2 : MirrorStr.startsWithS "System:" s = true
      · rw [if_pos h2]
      · rw [if_neg h2]
        by_cases h3 : MirrorStr.startsWithS "[Queued" s = true
        · rw [if_pos h3]
        · rw [if_neg h3]
          by_cases h4 : MirrorStr.startsWithS "[Audio]" s = true
          · rw [if_pos h4]
          · rw [if_neg h4, h]
            rw [if_pos (show (!false) = true from rfl)]
  · intro pre id post hpre hS hu
    simp only [SpecShapes.uuidShape, Bool.and_eq_true] at hu
    obtain ⟨⟨⟨⟨⟨⟨hlen, hall⟩, -⟩, -⟩, -⟩, -⟩, -⟩ := hu
    have hlen36 : id.length = 36 := by simpa using hlen
    have hcl : id.all MirrorDaemon.uuidTestChar = true := by
      rw [List.all_eq_true] at hall ⊢
      intro c hc
      exact MirrorDaemon.hexdash_uuidTestChar (hall c hc)
    rw [MirrorDaemon.isWebchat_msgid_eval pre id post hpre hS hcl]
    exact MirrorStr.hasRunN_of_all _ 36 id (by omega) hcl
  · intro pre id post hpre hS hn hlt
    have hcl := hdigits id hn
    rw [MirrorDaemon.isWebchat_msgid_eval pre id post hpre hS hcl]
    exact MirrorStr.hasRunN_short _ 36 id hlt
  · intro pre id post hpre hS hn hge
    have hcl := hdigits id hn
    rw [MirrorDaemon.isWebchat_msgid_eval pre id post hpre hS hcl]
    exact MirrorStr.hasRunN_of_all _ 36 id hge hcl

/-- Witness for the amended C6: a UUID id classifies as webchat, a short
numeric id does not. -/
theorem c6_witness :
    MirrorDaemon.isWebchatUserMessage
      ⟨"hi\n".data ++ (MirrorStr.msgIdKey
        ++ ((' ' :: "a8733e42-3dce-4de0-8dfc-4d8e1aaf7e4a".data) ++ (']' :: [])))⟩
      = true
    ∧ MirrorDaemon.isWebchatUserMessage
      ⟨"hi\n".data ++ (MirrorStr.msgIdKey
        ++ ((' ' :: "12345".data) ++ (']' :: [])))⟩ = false := by
  constructor
  · exact c6_channel_fingerprinting_amended.2.2.2.2.2.1 "hi\n".data
      "a8733e42-3dce-4de0-8dfc-4d8e1aaf7e4a".data []
      (by decide) (by decide) (by decide)
  · exact c6_channel_fingerprinting_amended.2.2.2.2.2.2.1 "hi\n".data
      "12345".data [] (by decide) (by decide) (by decide) (by decide)
